import Mathlib

/-!
Verification development for the `sab2html` Symbolics documentation
converter.  Python sources are shallowly embedded: byte buffers are
`List Nat` (one entry per byte, values < 256), Python `str` values are
`List Nat` of Unicode code points, fallible code returns
`Except String`.
-/

namespace Sab2Html

/- ===================== Byte stream (src/sab2html/stream.py) ============ -/

/-- Embeds `SabStream.__init__`: a bytes object with an offset pointer. -/
structure SabStream where
  data : List Nat
  offset : Nat
deriving DecidableEq, Repr

/-- Embeds `SabStream.read_u8`: `self.data[self.offset]`, then `offset += 1`.
Python raises `IndexError` when the offset is past the end. -/
def read_u8 (s : SabStream) : Except String (Nat × SabStream) :=
  match s.data[s.offset]? with
  | some b => .ok (b, { s with offset := s.offset + 1 })
  | none => .error ("IndexError")

/-- Embeds `SabStream.read_u16_le`: `struct.unpack_from ('<H', data, offset)`,
then `offset += 2`.  `unpack_from` raises `struct.error` when fewer than two
bytes remain. -/
def read_u16_le (s : SabStream) : Except String (Nat × SabStream) :=
  match s.data[s.offset]?, s.data[s.offset + 1]? with
  | some b0, some b1 => .ok (b0 + b1 * 256, { s with offset := s.offset + 2 })
  | _, _ => .error ("struct.error")

/-- Embeds `SabStream.read_u32_le`: `struct.unpack_from ('<I', data, offset)`,
then `offset += 4`. -/
def read_u32_le (s : SabStream) : Except String (Nat × SabStream) :=
  match s.data[s.offset]?, s.data[s.offset + 1]?,
        s.data[s.offset + 2]?, s.data[s.offset + 3]? with
  | some b0, some b1, some b2, some b3 =>
    .ok (b0 + b1 * 256 + b2 * 65536 + b3 * 16777216,
         { s with offset := s.offset + 4 })
  | _, _, _, _ => .error ("struct.error")

/-- Embeds `SabStream.read_float_le`: four little-endian bytes consumed; the
IEEE-754 value is modelled by its 32-bit pattern, which is all the claims
inspect. -/
def read_float_le (s : SabStream) : Except String (Nat × SabStream) :=
  match s.data[s.offset]?, s.data[s.offset + 1]?,
        s.data[s.offset + 2]?, s.data[s.offset + 3]? with
  | some b0, some b1, some b2, some b3 =>
    .ok (b0 + b1 * 256 + b2 * 65536 + b3 * 16777216,
         { s with offset := s.offset + 4 })
  | _, _, _, _ => .error ("struct.error")

/-- Embeds `SabStream.read_double_le`: eight little-endian bytes consumed; the
IEEE-754 value is modelled by its 64-bit pattern. -/
def read_double_le (s : SabStream) : Except String (Nat × SabStream) :=
  match s.data[s.offset]?, s.data[s.offset + 1]?,
        s.data[s.offset + 2]?, s.data[s.offset + 3]?,
        s.data[s.offset + 4]?, s.data[s.offset + 5]?,
        s.data[s.offset + 6]?, s.data[s.offset + 7]? with
  | some b0, some b1, some b2, some b3, some b4, some b5, some b6, some b7 =>
    .ok (b0 + b1 * 2^8 + b2 * 2^16 + b3 * 2^24 + b4 * 2^32 + b5 * 2^40
           + b6 * 2^48 + b7 * 2^56,
         { s with offset := s.offset + 8 })
  | _, _, _, _, _, _, _, _ => .error ("struct.error")

/-- Embeds `SabStream.read_bytes`: `val = self.data[self.offset:end]` (a
Python slice, which silently truncates past the end) and `self.offset = end`.
The function is total, exactly as the Python method never raises. -/
def read_bytes (s : SabStream) (n : Nat) : List Nat × SabStream :=
  ((s.data.drop s.offset).take n, { s with offset := s.offset + n })

/-- Embeds `SabStream.seek`. -/
def seek (s : SabStream) (position : Nat) : SabStream :=
  { s with offset := position }

/-- Embeds `SabStream.peek`: `self.data[self.offset]` without advancing. -/
def peek (s : SabStream) : Except String Nat :=
  match s.data[s.offset]? with
  | some b => .ok b
  | none => .error ("IndexError")

/-- Embeds `SabStream.eof`. -/
def eof (s : SabStream) : Bool :=
  decide (s.offset ≥ s.data.length)

/- ============ Genera charset recoder (src/sab2html/genera_charset.py) == -/

/-- Embeds `PARAGRAPH_MARKER = ""`. -/
def PARAGRAPH_MARKER : Nat := 0xe000

/-- Embeds `LINE_BREAK_MARKER = ""`. -/
def LINE_BREAK_MARKER : Nat := 0xe001

/-- Embeds the `GENERA_CHAR_MAP` dict: Genera codes 0x00-0x1F to Unicode. -/
def GENERA_CHAR_MAP : List (Nat × Nat) :=
  [(0x00, 0xb7), (0x01, 0x2193), (0x02, 0x3b1), (0x03, 0x3b2),
   (0x04, 0x2227), (0x05, 0xac), (0x06, 0x3b5), (0x07, 0x3c0),
   (0x08, 0x3bb), (0x09, 0x3b3), (0x0a, 0x3b4), (0x0b, 0x2191),
   (0x0c, 0xb1), (0x0d, 0x2295), (0x0e, 0x221e), (0x0f, 0x2202),
   (0x10, 0x2282), (0x11, 0x2283), (0x12, 0x222a), (0x13, 0x2229),
   (0x14, 0x2200), (0x15, 0x2203), (0x16, 0x2297), (0x17, 0x21c6),
   (0x18, 0x2190), (0x19, 0x2192), (0x1a, 0x2260), (0x1b, 0x22c4),
   (0x1c, 0x2264), (0x1d, 0x2265), (0x1e, 0x2261), (0x1f, 0x2228)]

/-- Membership/lookup in `GENERA_CHAR_MAP` (`code in GENERA_CHAR_MAP`). -/
def generaLookup (c : Nat) : Option Nat :=
  GENERA_CHAR_MAP.lookup c

/-- Embeds `_C1_TAB = 0x89`. -/
def C1_TAB : Nat := 0x89

/-- Embeds `_C1_STRIP = (set(range(0x7f, 0x8d)) | set(range(0x8e, 0xa0))) - {_C1_TAB}`. -/
def c1Strip (c : Nat) : Bool :=
  (decide ((0x7f ≤ c ∧ c ≤ 0x8c) ∨ (0x8e ≤ c ∧ c ≤ 0x9f))) && !(c == C1_TAB)

/-- Embeds `_TAB_WIDTH = 8`. -/
def TAB_WIDTH : Nat := 8

/-- Embeds `text.replace ('\x8d\x8d', PARAGRAPH_MARKER)`: Python `str.replace`
substitutes non-overlapping occurrences left to right. -/
def replaceParaMarkers : List Nat → List Nat
  | a :: b :: rest =>
    if a = 0x8d ∧ b = 0x8d then PARAGRAPH_MARKER :: replaceParaMarkers rest
    else a :: replaceParaMarkers (b :: rest)
  | l => l

/-- Embeds `result.replace ('\x8d', LINE_BREAK_MARKER)` (single-character
pattern, so plain element-wise substitution). -/
def replaceLineMarkers (l : List Nat) : List Nat :=
  l.map (fun c => if c = 0x8d then LINE_BREAK_MARKER else c)

/-- Embeds the `for ch in result` loop of `_recode_and_expand`, with the
running column counter `col`. -/
def expandChars : Nat → List Nat → List Nat
  | _, [] => []
  | col, ch :: rest =>
    if ch = C1_TAB then
      let spaces := TAB_WIDTH - col % TAB_WIDTH
      List.replicate spaces 0x20 ++ expandChars (col + spaces) rest
    else
      match generaLookup ch with
      | some m => m :: expandChars (col + 1) rest
      | none =>
        if c1Strip ch then expandChars col rest
        else if ch = LINE_BREAK_MARKER ∨ ch = 0x0a then ch :: expandChars 0 rest
        else if ch = PARAGRAPH_MARKER then ch :: expandChars 0 rest
        else ch :: expandChars (col + 1) rest

/-- Embeds `_recode_and_expand`: paragraph/line-break substitution followed by
the recode-and-tab-expand loop starting at column 0. -/
def recode_and_expand (text : List Nat) : List Nat :=
  expandChars 0 (replaceLineMarkers (replaceParaMarkers text))

/-- Embeds `recode_genera_characters`. -/
def recode_genera_characters (text : List Nat) : List Nat :=
  recode_and_expand text

/-- Embeds `recode_genera_long_string` (same handling). -/
def recode_genera_long_string (text : List Nat) : List Nat :=
  recode_and_expand text

/- ======= Helpers for Python strings as code-point lists ======= -/

/-- A Lean string literal as a Python string value (list of code points). -/
def cs (s : String) : List Nat :=
  s.data.map Char.toNat

/-- Python `str.lower`, modelled on the ASCII range: `A`-`Z` map to `a`-`z`,
everything else is unchanged.  All strings this development lowers are
ASCII. -/
def asciiLowerChar (c : Nat) : Nat :=
  if 0x41 ≤ c ∧ c ≤ 0x5a then c + 32 else c

/-- Python `str.lower` over a whole string. -/
def pyLower (l : List Nat) : List Nat :=
  l.map asciiLowerChar

/-- Python `str.upper`, modelled on the ASCII range. -/
def asciiUpperChar (c : Nat) : Nat :=
  if 0x61 ≤ c ∧ c ≤ 0x7a then c - 32 else c

/-- Python `str.upper` over a whole string. -/
def pyUpper (l : List Nat) : List Nat :=
  l.map asciiUpperChar

/-- Python `pat in s` for a two-character pattern `pq`. -/
def containsPair (p q : Nat) : List Nat → Bool
  | [] => false
  | [_] => false
  | c :: d :: rest => (c == p && d == q) || containsPair p q (d :: rest)

/-- Python `s.rindex (pat)` for a two-character pattern: index of the
rightmost occurrence. -/
def rfindPair (p q : Nat) : List Nat → Option Nat
  | [] => none
  | [_] => none
  | c :: d :: rest =>
    match rfindPair p q (d :: rest) with
    | some i => some (i + 1)
    | none => if c = p ∧ d = q then some 0 else none

/-- Python `s.endswith (suffix)`. -/
def pyEndsWith (suffix l : List Nat) : Bool :=
  l.drop (l.length - suffix.length) == suffix

/-- Python `pat in s` for an arbitrary pattern (used to state which file
names `scan_all` selects: those containing `.sab.`). -/
def containsSeq (pat l : List Nat) : Bool :=
  (List.range (l.length + 1)).any (fun i => List.isPrefixOf pat (l.drop i))

/- ============ Anchor slugs (src/sab2html/html_renderer.py _slugify) ==== -/

/-- The character class `[a-z0-9]` of `_SLUG_RE = re.compile (r'[^a-z0-9]+')`. -/
def isSlugChar (c : Nat) : Bool :=
  decide ((0x61 ≤ c ∧ c ≤ 0x7a) ∨ (0x30 ≤ c ∧ c ≤ 0x39))

/-- Embeds `_SLUG_RE.sub ('-', s)`: each maximal run of characters outside
`[a-z0-9]` is replaced by a single `-`.  `inRun` tracks whether the previous
character belonged to such a run (whose `-` has already been emitted). -/
def slugSubAux : Bool → List Nat → List Nat
  | _, [] => []
  | inRun, c :: rest =>
    if isSlugChar c then c :: slugSubAux false rest
    else if inRun then slugSubAux true rest
    else 0x2d :: slugSubAux true rest

/-- Embeds `_SLUG_RE.sub ('-', s)` (starting outside any run). -/
def slugSub (l : List Nat) : List Nat :=
  slugSubAux false l

/-- Embeds `.strip ('-')`: drop leading and trailing hyphens. -/
def stripHyphens (l : List Nat) : List Nat :=
  ((l.dropWhile (· == 0x2d)).reverse.dropWhile (· == 0x2d)).reverse

/-- Embeds `_slugify`: lower-case, collapse non-`[a-z0-9]` runs to `-`,
strip `-`, and fall back to `"section"` when empty. -/
def slugify (name : List Nat) : List Nat :=
  let s := pyLower name
  let t := stripHyphens (slugSub s)
  if t = [] then cs ("section") else t

/-- Does the string contain two adjacent hyphens (`--`)?  Used to state the
slug-shape claim. -/
def hasDoubleHyphen : List Nat → Bool
  | a :: b :: rest => (a == 0x2d && b == 0x2d) || hasDoubleHyphen (b :: rest)
  | _ => false

/- ========= Binary graphics commands (src/sab2html/binary_graphics.py) == -/

/-- Embeds the `BINARY_GRAPHICS_KEYWORDS` list literal, in source order. -/
def BINARY_GRAPHICS_KEYWORDS : List String :=
  [":bevel", ":butt", ":miter", ":none", ":round", ":square",
   ":draw", ":erase", ":flip",
   ":baseline", ":bottom", ":center", ":left", ":right", ":top",
   ":anti-cyclic", ":clamped", ":cyclic", ":relaxed",
   ":non-zero", ":odd-even",
   ":alu", ":attachment-x", ":attachment-y", ":character-style",
   ":clockwise", ":closed", ":copy-image",
   ":dash-pattern", ":scale-dashes", ":dashed", ":draw-end-point",
   ":draw-partial-dashes", ":end-angle",
   ":end-relaxation", ":end-slope-dx", ":end-slope-dy", ":filled",
   ":gray-level", ":handedness", ":image-bottom",
   ":image-left", ":image-right", ":image-top", ":initial-dash-phase",
   ":inner-x-radius", ":inner-y-radius",
   ":join-to-path", ":line-end-shape", ":line-joint-shape", ":mask",
   ":new-value", ":number-of-samples", ":opaque",
   ":pattern", ":points-are-convex-p", ":start-angle",
   ":start-relaxation", ":start-slope-dx", ":start-slope-dy",
   ":stretch-p", ":thickness", ":toward-x", ":toward-y", ":winding-rule",
   ":scale-thickness", ":character-size", ":string-width",
   ":scale-down-allowed", ":mask-x", ":mask-y",
   ":color", ":stipple", ":tile", ":shape", ":record-as-text",
   ":scan-conversion-mode",
   ":round-coordinates", ":center-circles", ":host-allowed", ":sketch",
   ":flatness",
   ":object", ":type", ":single-box", ":allow-sensitive-inferiors"]

/-- Embeds `_com_keyword` (opcode 64): read one u8 and index the keyword
table; results carry the advanced stream.  (The Python pair's `True`
result-kind flag, meaning for-value, is implicit.)  An index past the end of
the 86-entry table raises `IndexError` in Python. -/
def com_keyword (s : SabStream) : Except String (String × SabStream) := do
  let (index, s1) ← read_u8 s
  match BINARY_GRAPHICS_KEYWORDS[index]? with
  | some k => .ok (k, s1)
  | none => .error ("IndexError")

/-- Embeds `_com_small_integer` (opcode 52): `stream.read_u8 () - 128`. -/
def com_small_integer (s : SabStream) : Except String (Int × SabStream) := do
  let (b, s1) ← read_u8 s
  .ok ((b : Int) - 128, s1)

/-- Embeds `_com_medium_integer` (opcode 53): `low + high * 256 - 32768`. -/
def com_medium_integer (s : SabStream) : Except String (Int × SabStream) := do
  let (low, s1) ← read_u8 s
  let (high, s2) ← read_u8 s1
  .ok ((low : Int) + (high : Int) * 256 - 32768, s2)

/- ========= Record registry (src/sab2html/cross_references.py) ========== -/

/-- A Python value used as a `unique_id`: either a `str` or an `int`
(`unique-index` values are ints). -/
inductive PyKey where
  | pstr (s : List Nat)
  | pint (n : Nat)
deriving DecidableEq, Repr

/-- Embeds the three lookup dicts of `RecordRegistry` (only the maps
`resolve_reference` consults).  `by_id` maps a unique-id to
`(file_path, topic_name, type_sym)`; `by_index` maps a unique-index to the
same shape; `by_name` maps a topic name to
`(file_path, unique_id, type_sym)`. -/
structure RecordRegistry where
  by_id : List (PyKey × (List Nat × List Nat × List Nat))
  by_index : List (Nat × (List Nat × List Nat × List Nat))
  by_name : List (List Nat × (List Nat × PyKey × List Nat))
deriving Repr

/-- Embeds `RecordRegistry.resolve_reference`: exact `by_id` lookup, then —
for int ids — `by_index`, then a `by_name` lookup of the exact topic name
(guarded by `topic_name` being truthy, i.e. a non-empty string), returning
`(info[0], topic_name, info[2])`. -/
def resolve_reference (reg : RecordRegistry) (unique_id : PyKey)
    (topic_name : Option (List Nat)) : Option (List Nat × List Nat × List Nat) :=
  match reg.by_id.lookup unique_id with
  | some info => some info
  | none =>
    let tryIndex :=
      match unique_id with
      | .pint n => reg.by_index.lookup n
      | .pstr _ => none
    match tryIndex with
    | some info => some info
    | none =>
      match topic_name with
      | some t =>
        if t ≠ [] then
          match reg.by_name.lookup t with
          | some info => some (info.1, t, info.2.2)
          | none => none
        else none
      | none => none

/-- Modelled from the spec: the resolution procedure of §4.8 pass 2, whose
step 3 tries the topic name exactly, then upper-cased, then lower-cased
(`python` upper/lower modelled on ASCII).  This follows the spec's words and
exists to be compared with `resolve_reference`, which was translated from the
code. -/
def resolve_reference_spec (reg : RecordRegistry) (unique_id : PyKey)
    (topic_name : Option (List Nat)) : Option (List Nat × List Nat × List Nat) :=
  match reg.by_id.lookup unique_id with
  | some info => some info
  | none =>
    let tryIndex :=
      match unique_id with
      | .pint n => reg.by_index.lookup n
      | .pstr _ => none
    match tryIndex with
    | some info => some info
    | none =>
      match topic_name with
      | some t =>
        if t ≠ [] then
          let tryName := fun (cand : List Nat) =>
            match reg.by_name.lookup cand with
            | some info => some (info.1, cand, info.2.2)
            | none => none
          match tryName t with
          | some r => some r
          | none =>
            match tryName (pyUpper t) with
            | some r => some r
            | none => tryName (pyLower t)
        else none
      | none => none

/-- Embeds `RecordRegistry.get_html_path`: strip from the last `.~` onward,
then replace a terminal `.sab` with `.html`. -/
def get_html_path (relpath : List Nat) : List Nat :=
  let path := relpath
  let path :=
    if containsPair 0x2e 0x7e path then
      match rfindPair 0x2e 0x7e path with
      | some i => path.take i
      | none => path
    else path
  if pyEndsWith (cs (".sab")) path then
    path.take (path.length - 4) ++ cs (".html")
  else path

/- ===================== Python value universe ========================== -/

/-- The Python values flowing through the SAB reader and the HTML renderer:
strings, ints, float literals (kept as their token text, which nothing in the
verified claims computes with), bytes, `None`, lists, tuples, the dataclasses
of `sab_types.py`, and the renderer's private `_PARAGRAPH_MARKER` sentinel
object. -/
inductive SabValue where
  | vstr (s : List Nat)
  | vint (n : Int)
  | vfloatLit (s : List Nat)
  | vbytes (b : List Nat)
  | vnone
  | vlist (xs : List SabValue)
  | vtuple (xs : List SabValue)
  | vrecord (name ty fields : SabValue)
  | venvr (name mods contents : SabValue)
  | vcommand (name parameter : SabValue)
  | vref (topic ty uid view appearance booleans fld : SabValue)
  | vpicture (ty fileName nm contents : SabValue)
  | vfspec (nm : List Nat)
  | vmarker (ty encoding : SabValue)
  | vpmarker
deriving Repr

/-- Python `el is _PARAGRAPH_MARKER` (identity test against the sentinel). -/
def isPMarker : SabValue → Bool
  | .vpmarker => true
  | _ => false

/-- Python `isinstance (x, str) and not x` (the empty string). -/
def isEmptyStr : SabValue → Bool
  | .vstr [] => true
  | _ => false

/-- Python `str (v)` as used on environment and command names: the identity
on strings; ints print as decimal; other objects print as reprs that never
collide with the markup names compared against (modelled by a fixed
placeholder). -/
def pyStr : SabValue → List Nat
  | .vstr s => s
  | .vint n => cs (toString n)
  | _ => cs ("<object>")

/- == Paragraph/tab fix-up (src/sab2html/html_renderer.py, fix-up passes) == -/

/-- Items produced from one `item.split (PARAGRAPH_MARKER)` call: a
`_PARAGRAPH_MARKER` sentinel before every part but the first, empty parts
skipped (`if part:`).  `first` records whether the part is the first. -/
def partsToItems : Bool → List (List Nat) → List SabValue
  | _, [] => []
  | first, p :: ps =>
    (if first then [] else [SabValue.vpmarker])
      ++ (if p ≠ [] then [SabValue.vstr p] else [])
      ++ partsToItems false ps

/-- The per-item step of `_split_out_paragraph_markers`: a text item
containing the paragraph sentinel splits into parts and markers, everything
else passes through. -/
def splitOneItem (item : SabValue) : List SabValue :=
  match item with
  | .vstr s =>
    if s.contains PARAGRAPH_MARKER then
      partsToItems true (s.splitOn PARAGRAPH_MARKER)
    else [item]
  | _ => [item]

/-- Embeds `_split_out_paragraph_markers`. -/
def split_out_paragraph_markers : List SabValue → List SabValue
  | [] => []
  | item :: rest => splitOneItem item ++ split_out_paragraph_markers rest

/-- Test `isinstance (el, SageCommand) and str (el.name) == 'tab-to-tab-stop'`. -/
def isTabCommand (el : SabValue) : Bool :=
  match el with
  | .vcommand nm _ => pyStr nm == cs ("tab-to-tab-stop")
  | _ => false

/-- The synthetic environment `SageEnvr (name='nex-tab-to-tab-stop', mods=[],
contents_list=list (this_tab))`. -/
def nexTabEnvr (items : List SabValue) : SabValue :=
  .venvr (.vstr (cs ("nex-tab-to-tab-stop"))) (.vlist []) (.vlist items)

/-- Embeds the loop of `_fix_up_tabs`; `thisTab` is the `this_tab`
accumulator (`none` = Python `None`). -/
def fixUpTabsAux : Option (List SabValue) → List SabValue → List SabValue
  | thisTab, [] =>
    (match thisTab with
     | some l => [nexTabEnvr l]
     | none => [])
  | thisTab, el :: rest =>
    if isTabCommand el then
      fixUpTabsAux (some (thisTab.getD [])) rest
    else if isPMarker el then
      (match thisTab with
       | some l => [nexTabEnvr l]
       | none => []) ++ el :: fixUpTabsAux none rest
    else
      match thisTab with
      | some l => fixUpTabsAux (some (l ++ [el])) rest
      | none => el :: fixUpTabsAux none rest

/-- Embeds `_fix_up_tabs`. -/
def fix_up_tabs (lst : List SabValue) : List SabValue :=
  fixUpTabsAux none lst

/-- Embeds the `_BLOCK_ENVRS` frozenset literal. -/
def BLOCK_ENVRS : List (List Nat) :=
  [cs ("example"), cs ("display"), cs ("enumerate"), cs ("itemize"),
   cs ("verbatim"), cs ("description"), cs ("center"), cs ("figure"),
   cs ("group"), cs ("multiple"), cs ("commentary"), cs ("header"),
   cs ("heading"), cs ("majorheading"), cs ("lisp:format"),
   cs ("common-lisp:format"), cs ("global:format")]

/-- Embeds `_is_block_envr`. -/
def is_block_envr (el : SabValue) : Bool :=
  match el with
  | .venvr nm _ _ => BLOCK_ENVRS.contains (pyStr nm)
  | _ => false

/-- Embeds `_flush_paragraph`: filter out empty strings and, when something
remains, wrap it in a synthetic `nex-paragraph` environment. -/
def flushParagraph (thisP : Option (List SabValue)) : List SabValue :=
  match thisP with
  | none => []
  | some l =>
    let filtered := l.filter (fun x => !(isEmptyStr x))
    if filtered.isEmpty then []
    else [SabValue.venvr (.vstr (cs ("nex-paragraph"))) (.vlist []) (.vlist filtered)]

/-- Embeds the loop of `_fix_up_paragraphs`. -/
def fixUpParasAux : Option (List SabValue) → List SabValue → List SabValue
  | thisP, [] => flushParagraph thisP
  | thisP, el :: rest =>
    if isPMarker el then
      flushParagraph thisP ++ fixUpParasAux none rest
    else if is_block_envr el then
      flushParagraph thisP ++ el :: fixUpParasAux none rest
    else
      fixUpParasAux (some (thisP.getD [] ++ [el])) rest

/-- Embeds `_fix_up_paragraphs` (identity when no marker occurs). -/
def fix_up_paragraphs (lst : List SabValue) : List SabValue :=
  if lst.any isPMarker then fixUpParasAux none lst else lst

/-- Embeds `_fix_up_special_markup`. -/
def fix_up_special_markup (lst : List SabValue) : List SabValue :=
  fix_up_paragraphs (fix_up_tabs (split_out_paragraph_markers lst))

/-- Is this element an environment named `nex-paragraph`?  Input lists
contain none, so every such node in a fixed-up list is synthetic. -/
def isNexParagraph (el : SabValue) : Bool :=
  match el with
  | .venvr nm _ _ => pyStr nm == cs ("nex-paragraph")
  | _ => false

/-- The paragraph fix-up invariant on one element: a `nex-paragraph`
environment has no block-level environment among its direct children. -/
def nexParagraphDirectBlockFree (el : SabValue) : Bool :=
  match el with
  | .venvr nm _ (.vlist contents) =>
    if pyStr nm == cs ("nex-paragraph") then
      contents.all (fun c => !(is_block_envr c))
    else true
  | _ => true

/- =========== SVG renderer bounding box (src/sab2html/svg_renderer.py) == -/

/-- Embeds the `BoundingBox` class (fields `x1 y1 x2 y2`); coordinates are
modelled as integers, which is all the min/max bookkeeping needs. -/
structure BoundingBox where
  x1 : Int
  y1 : Int
  x2 : Int
  y2 : Int
deriving DecidableEq, Repr

/-- Embeds `BoundingBox ()`: all four fields default to 0. -/
def bbInit : BoundingBox := ⟨0, 0, 0, 0⟩

/-- Embeds `BoundingBox.extend_point`. -/
def BoundingBox.extend_point (bb : BoundingBox) (x y : Int) : BoundingBox :=
  ⟨min bb.x1 x, min bb.y1 y, max bb.x2 x, max bb.y2 y⟩

/-- Embeds `BoundingBox.extend_box`. -/
def BoundingBox.extend_box (bb other : BoundingBox) : BoundingBox :=
  ⟨min bb.x1 other.x1, min bb.y1 other.y1, max bb.x2 other.x2, max bb.y2 other.y2⟩

/-- A value in a graphics options plist (alternating keyword keys and
values). -/
inductive GVal where
  | gint (n : Int)
  | gkey (s : String)
  | gbool (b : Bool)
  | gother
deriving DecidableEq, Repr

/-- Embeds `_plist_get`: scan even positions for the key, return the value
after it. -/
def plist_get : List GVal → String → Option GVal
  | k :: v :: rest, key =>
    if k = GVal.gkey key then some v else plist_get rest key
  | _, _ => none

/-- Python truthiness of an options value (`if image_right:`). -/
def gTruthy : GVal → Bool
  | .gint n => !(n == 0)
  | .gbool b => b
  | .gkey s => !(s == "")
  | .gother => true

/-- An options value used as a number (`x + w`); a non-numeric value here
would raise `TypeError` in Python and never affects the claims proved. -/
def gInt : GVal → Int
  | .gint n => n
  | .gbool b => if b then 1 else 0
  | _ => 0

/-- The `image` operand of `OpImage`: either an `OpRasterImage` (byte_size,
width, height, payload length) or some other decoded value, which the
renderer's `isinstance (img, OpRasterImage)` test skips. -/
inductive GImg where
  | raster (byteSize : Nat) (width height : Int) (dataLen : Nat)
  | notRaster
deriving DecidableEq, Repr

/-- The decoded graphics forms of `binary_graphics.py` that `_render_ops`
walks (strings carried as code-point lists). -/
inductive GForm where
  | point (x y : Int) (options : List GVal)
  | line (sx sy ex ey : Int) (options : List GVal)
  | lines (points : List Int) (options : List GVal)
  | rect (left top right bottom : Int) (options : List GVal)
  | triangle (ax ay bx bb cx cy : Int) (options : List GVal)
  | polygon (points : List Int) (options : List GVal)
  | ellipse (cx cy rx ry : Int) (options : List GVal)
  | bezier (sx sy ex ey c1x c1y c2x c2y : Int) (options : List GVal)
  | cubicSpline (points : List Int) (options : List GVal)
  | pathOp (subOps : List GForm) (options : List GVal)
  | strAt (s : List Nat) (x y : Int) (options : List GVal)
  | strImage (s : List Nat) (x y : Int) (options : List GVal)
  | arcTo (tox toy tix tiy radius : Int) (options : List GVal)
  | image (img : GImg) (left top : Int) (options : List GVal)
  | lineTo (ex ey : Int) (options : List GVal)
  | closePath (options : List GVal)
  | setCurrentPosition (x y : Int) (options : List GVal)
  | graphicsTransform (r11 r12 r21 r22 tx ty : Int)
  | scanConversionMode (outputForms : List GForm) (options : List GVal)
deriving Repr

/-- Embeds `OpGraphicsTransform` as the renderer's current transform. -/
structure GTransform where
  r11 : Int
  r12 : Int
  r21 : Int
  r22 : Int
  tx : Int
  ty : Int
deriving DecidableEq, Repr

/-- The initial transform of `render_picture_to_svg`: the identity. -/
def idTransform : GTransform := ⟨1, 0, 0, 1, 0, 0⟩

/-- Embeds the bounding-box bookkeeping of `_render_ops`: every branch's
`bb.extend_point`/`bb.extend_box` calls and the transform threading, in
source order.  The SVG element strings the loop also accumulates do not feed
back into the box and are omitted.  `tx (x) = x + transform.tx` and
`ty (y) = y - transform.ty` as in the source. -/
def renderOpsBB : GTransform → BoundingBox → List GForm → BoundingBox
  | _, bb, [] => bb
  | t, bb, op :: rest =>
    match op with
    | .graphicsTransform r11 r12 r21 r22 ttx tty =>
      renderOpsBB ⟨r11, r12, r21, r22, ttx, tty⟩ bb rest
    | .scanConversionMode subs _ =>
      let subBB := renderOpsBB t bbInit subs
      renderOpsBB t (bb.extend_box subBB) rest
    | .line sx sy ex ey _ =>
      let bb := bb.extend_point (sx + t.tx) ((-sy) - t.ty)
      let bb := bb.extend_point (ex + t.tx) ((-ey) - t.ty)
      renderOpsBB t bb rest
    | .rect l tp r btm _ =>
      let x := min l r + t.tx
      let y := (-(max tp btm)) - t.ty
      let w := |r - l|
      let h := |btm - tp|
      let bb := bb.extend_point x y
      let bb := bb.extend_point (x + w) (y + h)
      renderOpsBB t bb rest
    | .strAt s x0 y0 _ =>
      let x := x0 + t.tx
      let y := (-y0) - t.ty
      let bb := bb.extend_point x y
      let bb := bb.extend_point (x + s.length * 10) (y - 16)
      renderOpsBB t bb rest
    | .strImage s x0 y0 _ =>
      let x := x0 + t.tx
      let y := (-y0) - t.ty
      let bb := bb.extend_point x y
      let bb := bb.extend_point (x + s.length * 10) (y - 16)
      renderOpsBB t bb rest
    | .image img left top opts =>
      (match img with
       | .raster _ wRaster hRaster _ =>
         let x := left + t.tx
         let y := top - t.ty
         let w :=
           match plist_get opts (":image-right") with
           | some v => if gTruthy v then gInt v else wRaster
           | none => wRaster
         let h :=
           match plist_get opts (":image-bottom") with
           | some v => if gTruthy v then gInt v else hRaster
           | none => hRaster
         let bb := bb.extend_point x y
         let bb := bb.extend_point (x + w) (y + h)
         renderOpsBB t bb rest
       | .notRaster => renderOpsBB t bb rest)
    | .point x0 y0 _ =>
      renderOpsBB t (bb.extend_point (x0 + t.tx) (y0 - t.ty)) rest
    | _ => renderOpsBB t bb rest

/-- The bounding box computed by `render_picture_to_svg` before it formats
the `viewBox`: `_render_ops` with the identity transform. -/
def render_picture_bbox (ops : List GForm) : BoundingBox :=
  renderOpsBB idTransform bbInit ops

/- ===== SAB reader (src/sab2html/sab_reader.py, sab_types.py) ===========

The Python reader mutates a `SabStream` whose `data` buffer is immutable:
only the offset ever changes.  The embedding therefore threads the offset
explicitly over a fixed `data` context, through wrappers around the stream
operations above.  Recursion in the reader is not structural (counted loops
and a 46-way dispatch), so every reader takes a fuel argument, consumed at
each entry; fuel exhaustion is an error Python does not have, and concrete
theorems supply ample fuel. -/

/-- `stream.read_u8` with the offset threaded over fixed data. -/
def readU8At (data : List Nat) (off : Nat) : Except String (Nat × Nat) :=
  match read_u8 ⟨data, off⟩ with
  | .ok (v, s) => .ok (v, s.offset)
  | .error e => .error e

/-- `stream.read_u16_le` with the offset threaded over fixed data. -/
def readU16At (data : List Nat) (off : Nat) : Except String (Nat × Nat) :=
  match read_u16_le ⟨data, off⟩ with
  | .ok (v, s) => .ok (v, s.offset)
  | .error e => .error e

/-- `stream.read_u32_le` with the offset threaded over fixed data. -/
def readU32At (data : List Nat) (off : Nat) : Except String (Nat × Nat) :=
  match read_u32_le ⟨data, off⟩ with
  | .ok (v, s) => .ok (v, s.offset)
  | .error e => .error e

/-- `stream.read_bytes` with the offset threaded over fixed data. -/
def readBytesAt (data : List Nat) (off n : Nat) : List Nat × Nat :=
  match read_bytes ⟨data, off⟩ n with
  | (bs, s) => (bs, s.offset)

/-- `stream.peek` over fixed data. -/
def peekAt (data : List Nat) (off : Nat) : Except String Nat :=
  peek ⟨data, off⟩

/-- Embeds `SymbolTable` of `sab_types.py`: an append-only list of interned
symbol strings. -/
abbrev SymbolTable := List (List Nat)

/-- Embeds `LISP_NIL_SYMBOLS` membership (`_is_nil`). -/
def is_nil (v : SabValue) : Bool :=
  match v with
  | .vstr s => s == cs ("lisp:nil") || s == cs ("common-lisp:nil")
  | _ => false

/-- Embeds `FIELD_NAME_TO_SAB_CODE` of `sab_types.py`. -/
def FIELD_NAME_TO_SAB_CODE : List (List Nat × Nat) :=
  [(cs ("unique-id"), 35), (cs ("version-number"), 10), (cs ("flags"), 10),
   (cs ("location"), 27), (cs ("tokens"), 37), (cs ("keywords"), 9),
   (cs ("callee-list"), 39), (cs ("source-topic"), 9),
   (cs ("file-attribute-string"), 38), (cs ("contents"), 9),
   (cs ("arglist"), 9), (cs ("symbolics-common-lisp:arglist"), 9),
   (cs ("modification-history"), 36), (cs ("source-title"), 9),
   (cs ("oneliner"), 9), (cs ("related"), 9), (cs ("releasenumber"), 9),
   (cs ("abbrev"), 9), (cs ("notes"), 9), (cs ("glossary"), 9),
   (cs ("patched-from"), 11), (cs ("unique-index"), 10)]

/- -------- S-expression micro-parser (src/sab2html/sexpr_parser.py) ----- -/

/-- Python `ch.isspace ()`, modelled on the ASCII whitespace characters. -/
def isSpaceChar (c : Nat) : Bool :=
  c == 0x20 || c == 0x9 || c == 0xa || c == 0xd || c == 0xb || c == 0xc

/-- The atom-terminating characters `'() \t\n\r"'` of `_tokenize`. -/
def isAtomEnd (c : Nat) : Bool :=
  c == 0x28 || c == 0x29 || c == 0x20 || c == 0x9 || c == 0xa || c == 0xd
    || c == 0x22

/-- The string-literal scan of `_tokenize`: characters after the opening
quote, up to and including the closing quote; a backslash skips (takes
unconditionally) the following character, tracked by the `escaped` flag.
Returns the token tail and the remaining input. -/
def scanStrTok : Bool → List Nat → List Nat × List Nat
  | _, [] => ([], [])
  | true, c :: rest =>
    let (tk, rm) := scanStrTok false rest
    (c :: tk, rm)
  | false, c :: rest =>
    if c = 0x22 then ([0x22], rest)
    else if c = 0x5c then
      let (tk, rm) := scanStrTok true rest
      (c :: tk, rm)
    else
      let (tk, rm) := scanStrTok false rest
      (c :: tk, rm)

/-- The remaining input of `scanStrTok` never grows. -/
theorem scanStrTok_rest_le : ∀ (l : List Nat) (b : Bool),
    (scanStrTok b l).2.length ≤ l.length := by
  intro l
  induction l with
  | nil => intro b; cases b <;> simp [scanStrTok]
  | cons c rest ih =>
    intro b
    cases b with
    | true =>
      have := ih false
      simp only [scanStrTok, List.length_cons]
      omega
    | false =>
      by_cases h1 : c = 0x22
      · simp [scanStrTok, h1]
      · by_cases h2 : c = 0x5c
        · have := ih true
          simp only [scanStrTok, if_neg h1, if_pos h2, List.length_cons]
          omega
        · have := ih false
          simp only [scanStrTok, if_neg h1, if_neg h2, List.length_cons]
          omega

/-- Embeds `_tokenize`: split into parens, quotes, string literals and
atoms. -/
def sexprTokenize : List Nat → List (List Nat)
  | [] => []
  | c :: rest =>
    if isSpaceChar c then sexprTokenize rest
    else if c = 0x28 then [0x28] :: sexprTokenize rest
    else if c = 0x29 then [0x29] :: sexprTokenize rest
    else if c = 0x22 then
      (0x22 :: (scanStrTok false rest).1) :: sexprTokenize (scanStrTok false rest).2
    else if c = 0x27 then [0x27] :: sexprTokenize rest
    else
      (c :: rest.takeWhile (fun d => !(isAtomEnd d)))
        :: sexprTokenize (rest.dropWhile (fun d => !(isAtomEnd d)))
termination_by l => l.length
decreasing_by
  · simp only [List.length_cons]; omega
  · simp only [List.length_cons]; omega
  · simp only [List.length_cons]; omega
  · simp only [List.length_cons]
    exact Nat.lt_succ_of_le (scanStrTok_rest_le rest false)
  · simp only [List.length_cons]; omega
  · simp only [List.length_cons]
    exact Nat.lt_succ_of_le
      ((List.IsSuffix.sublist (List.dropWhile_suffix _)).length_le)

/-- ASCII digit test. -/
def isDigitChar (c : Nat) : Bool :=
  decide (0x30 ≤ c ∧ c ≤ 0x39)

/-- Decimal value of a digit string. -/
def natFromDigits (l : List Nat) : Nat :=
  l.foldl (fun acc d => acc * 10 + (d - 0x30)) 0

/-- Python `int (tok)`, modelled on its common grammar: an optional sign
followed by one or more decimal digits (underscore grouping and non-ASCII
digits are outside the corpus and not modelled). -/
def parseIntTok (t : List Nat) : Option Int :=
  match t with
  | [] => none
  | c :: rest =>
    let (sign, digits) : Int × List Nat :=
      if c = 0x2b then (1, rest)
      else if c = 0x2d then (-1, rest)
      else (1, t)
    if digits ≠ [] ∧ digits.all isDigitChar then
      some (sign * (natFromDigits digits : Int))
    else none

/-- Mantissa part of Python `float (tok)`: `digits`, `digits.digits`,
`digits.` or `.digits`. -/
def floatMantissaOk (t : List Nat) : Bool :=
  match t.splitOn 0x2e with
  | [d] => !d.isEmpty && d.all isDigitChar
  | [a, b] =>
    a.all isDigitChar && b.all isDigitChar && !(a.isEmpty && b.isEmpty)
  | _ => false

/-- An optionally signed digit string (float exponent part). -/
def signedDigitsOk (t : List Nat) : Bool :=
  match t with
  | [] => false
  | c :: rest =>
    if c = 0x2b ∨ c = 0x2d then !rest.isEmpty && rest.all isDigitChar
    else !t.isEmpty && t.all isDigitChar

/-- Python `float (tok)` acceptance, modelled on its common grammar:
optionally signed mantissa with an optional `e`/`E` exponent (`inf`/`nan`
spellings are outside the corpus and not modelled). -/
def floatTokOk (t : List Nat) : Bool :=
  let t' : List Nat :=
    match t with
    | c :: rest => if c = 0x2b ∨ c = 0x2d then rest else t
    | [] => t
  match (t'.map asciiLowerChar).splitOn 0x65 with
  | [m] => floatMantissaOk m
  | [m, e] => floatMantissaOk m && signedDigitsOk e
  | _ => false

/-- Embeds the escape undoing of `_parse_atom` on string literals:
`.replace ('\\"', '"')` then `.replace ('\\\\', '\\')`, each left-to-right
and non-overlapping. -/
def replacePairWith (p q : Nat) (r : Nat) : List Nat → List Nat
  | a :: b :: rest =>
    if a = p ∧ b = q then r :: replacePairWith p q r rest
    else a :: replacePairWith p q r (b :: rest)
  | l => l

/-- Embeds `_parse_atom`: a quoted token becomes a string (escapes undone),
else an int, else a float (kept as its literal text), else a lower-cased
symbol. -/
def parse_atom (tok : List Nat) : SabValue :=
  if tok.head? = some 0x22 ∧ tok.getLast? = some 0x22 then
    .vstr (replacePairWith 0x5c 0x5c 0x5c
      (replacePairWith 0x5c 0x22 0x22 (tok.drop 1).dropLast))
  else
    match parseIntTok tok with
    | some n => .vint n
    | none =>
      if floatTokOk tok then .vfloatLit tok
      else .vstr (pyLower tok)

mutual

/-- Embeds `_parse_tokens`.  The atom branch returns `pos` unadvanced,
exactly as the source does; a list containing an atom therefore loops
forever in Python, which the model renders as fuel exhaustion. -/
def parseTokens (fuel : Nat) (tokens : List (List Nat)) (pos : Nat) :
    Except String (SabValue × Nat) :=
  match fuel with
  | 0 => .error ("fuel exhausted")
  | fuel + 1 =>
    match tokens[pos]? with
    | none => .ok (.vnone, pos)
    | some tok =>
      if tok = [0x28] then
        parseListItems fuel tokens (pos + 1) [] false
      else if tok = [0x27] then do
        let (item, pos2) ← parseTokens fuel tokens (pos + 1)
        .ok (.vlist [.vstr (cs ("quote")), item], pos2)
      else if tok = [0x29] then .ok (.vnone, pos + 1)
      else .ok (parse_atom tok, pos)
termination_by structural fuel

/-- Embeds the list loop of `_parse_tokens` (`while pos < len (tokens) and
tokens[pos] != ')'`), with the trailing `pos += 1` and the dotted-pair
special case. -/
def parseListItems (fuel : Nat) (tokens : List (List Nat)) (pos : Nat)
    (items : List SabValue) (dotted : Bool) : Except String (SabValue × Nat) :=
  match fuel with
  | 0 => .error ("fuel exhausted")
  | fuel + 1 =>
    match tokens[pos]? with
    | none =>
      .ok (if dotted ∧ items.length = 2 then
             .vtuple [items.headD .vnone, (items.drop 1).headD .vnone]
           else .vlist items, pos + 1)
    | some tok =>
      if tok = [0x29] then
        .ok (if dotted ∧ items.length = 2 then
               .vtuple [items.headD .vnone, (items.drop 1).headD .vnone]
             else .vlist items, pos + 1)
      else if tok = [0x2e] then
        parseListItems fuel tokens (pos + 1) items true
      else do
        let (item, pos2) ← parseTokens fuel tokens pos
        parseListItems fuel tokens pos2 (items ++ [item]) dotted
termination_by structural fuel

end

/-- Embeds `parse_sexpr`: tokenize, `None` for no tokens, else parse from
position 0; the parse depth fuel is ample for any terminating Python run. -/
def parse_sexpr (s : List Nat) : Except String SabValue :=
  let tokens := sexprTokenize s
  if tokens.isEmpty then .ok .vnone
  else do
    let (r, _) ← parseTokens (tokens.length * 2 + 8) tokens 0
    .ok r

/- -------- Fat strings (sab_reader.py read_fat_string helpers) ---------- -/

/-- The `for _ in range (dims[1]): stream.read_u8 ()` skip loop. -/
def skipU8s (data : List Nat) : Nat → Nat → Except String Nat
  | 0, off => .ok off
  | n + 1, off => do
    let (_, off2) ← readU8At data off
    skipU8s data n off2

/-- The chunked payload loop of `read_fat_string`:
`while len (result) < total_len`, each round reading a length byte, a
discarded byte, and the chunk. -/
def readFatChunks (data : List Nat) :
    Nat → Nat → Nat → List Nat → Except String (List Nat × Nat)
  | 0, _, _, _ => .error ("fuel exhausted")
  | fuel + 1, off, total, acc =>
    if acc.length < total then do
      let (strlen, off2) ← readU8At data off
      let (_, off3) ← readU8At data off2
      let (chunk, off4) := readBytesAt data off3 strlen
      readFatChunks data fuel off4 total (acc ++ chunk)
    else .ok (acc, off)

/-- Embeds `read_fat_string` (registered for code 34): dimensions, optional
discarded font/style framing, then the chunked payload, recoded as a long
string.  It never consults the symbol table. -/
def read_fat_string (data : List Nat) (fuel off : Nat) :
    Except String (SabValue × Nat) := do
  let (dimension_count, off) ← readU8At data off
  let (dims, off) ← readDims data dimension_count off []
  let total_len := dims.headD 0
  let dim1 := (dims.drop 1).headD 0
  let off ←
    if dims.length > 1 ∧ dim1 > 0 then do
      let off ← skipU8s data dim1 off
      let (type_byte, off) ← readU8At data off
      let off ←
        if type_byte = 0x0c then do
          let (fst_len, off) ← readU8At data off
          let (_, off) := readBytesAt data off fst_len
          let (snd_len, off) ← readU8At data off
          let (_, off) := readBytesAt data off snd_len
          let (ten, off) ← readU8At data off
          if ten ≠ 0x10 then .error ("Expected 0x10 in fat string")
          else pure off
        else if type_byte = 0x14 then do
          let (style_len, off) ← readU8At data off
          let (_, off) := readBytesAt data off style_len
          let (next_byte, off) ← readU8At data off
          if next_byte = 0x14 then do
            let (style_len2, off) ← readU8At data off
            let (_, off) := readBytesAt data off style_len2
            pure off
          else if next_byte ≠ 0x10 then
            .error ("Expected 0x10 or 0x14 in fat string")
          else pure off
        else .error ("Unknown fat string type code")
      let (font_len, off) ← readU8At data off
      let (_, off) := readBytesAt data off font_len
      let (zeroByte, off) ← readU8At data off
      if zeroByte ≠ 0 then .error ("Expected 0x00 in fat string")
      else pure off
    else pure off
  let (result, off) ← readFatChunks data fuel off total_len []
  .ok (.vstr (recode_genera_long_string result), off)
where
  /-- `dims = [stream.read_u8 () for _ in range (dimension_count)]`. -/
  readDims (data : List Nat) :
      Nat → Nat → List Nat → Except String (List Nat × Nat)
    | 0, off, acc => .ok (acc, off)
    | n + 1, off, acc => do
      let (d, off2) ← readU8At data off
      readDims data n off2 (acc ++ [d])

/- -------- The 46-code dispatch reader (sab_reader.py) ------------------ -/

set_option maxHeartbeats 3200000 in
mutual

/-- Embeds `read_sab_thing`: read the code byte, enforce `required`, then
dispatch.  All codes 0-45 have registered readers; anything else fails. -/
def read_sab_thing (data : List Nat) (fuel : Nat) (off : Nat)
    (table : SymbolTable) (required : Option Nat) :
    Except String (SabValue × Nat × SymbolTable) :=
  match fuel with
  | 0 => .error ("fuel exhausted")
  | fuel + 1 => do
    let (code, off) ← readU8At data off
    match required with
    | some r =>
      if code ≠ r then .error ("SAB code mismatch")
      else readDispatch data fuel code off table
    | none => readDispatch data fuel code off table
termination_by structural fuel

/-- The `_readers` dispatch table: one case per registered reader, in code
order, each commented with the Python reader it embeds. -/
def readDispatch (data : List Nat) (fuel : Nat) (code : Nat) (off : Nat)
    (table : SymbolTable) :
    Except String (SabValue × Nat × SymbolTable) :=
  match fuel with
  | 0 => .error ("fuel exhausted")
  | fuel + 1 =>
    match code with
    | 0 => do    -- read_record
      let (name, off, table) ← read_sab_thing data fuel off table none
      let (ty, off, table) ← read_sab_thing data fuel off table (some 1)
      let (fields, off, table) ← read_sab_thing data fuel off table (some 3)
      .ok (.vrecord name ty fields, off, table)
    | 1 => read_sab_thing data fuel off table none    -- read_type_symbol
    | 2 => do    -- read_function_spec
      let (v, off, table) ← read_sab_string data fuel off table
      match v with
      | .vstr nm => .ok (.vfspec nm, off, table)
      | _ => .error ("function spec name not a string")
    | 3 => do    -- read_field_alist
      let (n, off) ← readU16At data off
      let (fields, off, table) ← readFieldPairsN data fuel n off table []
      .ok (.vlist fields, off, table)
    | 4 => readFieldNameR data fuel off table    -- read_field_name
    | 5 => do    -- read_envr
      let (nm, off, table) ← read_sab_thing data fuel off table (some 6)
      let (mods, off, table) ← read_sab_thing data fuel off table (some 7)
      let (contents, off, table) ← read_sab_thing data fuel off table (some 9)
      .ok (.venvr nm mods contents, off, table)
    | 6 => read_sab_thing data fuel off table none    -- read_envr_name
    | 7 => do    -- read_envr_mods
      let (n, off) ← readU16At data off
      let (mods, off, table) ← readModsN data fuel n off table []
      .ok (.vlist mods, off, table)
    | 8 => read_sab_thing data fuel off table none    -- read_attribute_name
    | 9 => do    -- read_contents_list
      let (n, off) ← readU16At data off
      let (xs, off, table) ← readThingsN data fuel n off table []
      .ok (.vlist xs, off, table)
    | 10 => do    -- read_fixnum
      let (v, off) ← readU32At data off
      .ok (.vint v, off, table)
    | 11 => do    -- read_string
      let (size, off) ← readU8At data off
      let (raw, off) := readBytesAt data off size
      .ok (.vstr (recode_genera_characters raw), off, table)
    | 12 => do    -- read_long_string
      let (size, off) ← readU32At data off
      let (raw, off) := readBytesAt data off size
      .ok (.vstr (recode_genera_long_string raw), off, table)
    | 13 => do    -- read_list
      let (n, off) ← readU16At data off
      let (xs, off, table) ← readThingsN data fuel n off table []
      .ok (.vlist xs, off, table)
    | 14 => do    -- read_symbol_ref
      let (index, off) ← readU16At data off
      match table[index]? with
      | some sym => .ok (.vstr sym, off, table)
      | none => .error ("IndexError")
    | 15 => read_sab_symbol data fuel off table (cs ("uninterned:"))
    | 16 => read_sab_symbol data fuel off table []    -- sage pkg: empty prefix
    | 17 => do    -- read_pkg_symbol_def
      let (pkg, off, table) ← read_sab_string data fuel off table
      match pkg with
      | .vstr p => read_sab_symbol data fuel off table (p ++ [0x3a])
      | _ => .error ("package name not a string")
    | 18 => read_sab_symbol data fuel off table (cs ("doc:"))
    | 19 => do    -- read_read_from_string
      let (v, off, table) ← read_sab_string data fuel off table
      match v with
      | .vstr s =>
        (match parse_sexpr s with
         | .ok r => .ok (r, off, table)
         | .error e => .error e)
      | _ => .error ("read-from-string payload not a string")
    | 20 => do    -- read_simple_command
      let (nm, off, table) ← read_sab_thing data fuel off table (some 22)
      .ok (.vcommand nm .vnone, off, table)
    | 21 => do    -- read_command
      let (nm, off, table) ← read_sab_thing data fuel off table (some 23)
      let (param, off, table) ← read_sab_thing data fuel off table none
      .ok (.vcommand nm (if is_nil param then .vlist [] else param),
           off, table)
    | 22 => read_sab_thing data fuel off table none   -- read_simple_command_name
    | 23 => read_sab_thing data fuel off table none   -- read_command_name
    | 24 => do    -- read_macro_call
      let (nm, off, table) ← read_sab_thing data fuel off table (some 25)
      let (arglist, off, table) ← read_sab_thing data fuel off table (some 26)
      .ok (.vcommand nm arglist, off, table)
    | 25 => read_sab_thing data fuel off table none   -- read_macro_name
    | 26 => read_sab_thing data fuel off table none   -- read_macro_arglist
    | 27 => do    -- read_location_pair
      let (a, off, table) ← read_sab_thing data fuel off table (some 10)
      let (b, off, table) ← read_sab_thing data fuel off table (some 10)
      .ok (.vtuple [a, b], off, table)
    | 28 => do    -- read_index
      let (n, off) ← readU32At data off
      let (items, off, table) ← readIndexItemsN data fuel n off table []
      .ok (.vlist items, off, table)
    | 29 => do    -- read_callee_triple_list
      let (n, off) ← readU16At data off
      let (xs, off, table) ← readCalleeTriplesN data fuel n off table []
      .ok (.vlist xs, off, table)
    | 30 => do    -- read_index_item
      let (topic, off, table) ← read_sab_thing data fuel off table none
      let (ty, off, table) ← read_sab_thing data fuel off table (some 1)
      let (n, off) ← readU16At data off
      let (fields, off, table) ← readFieldPairsN data fuel n off table []
      .ok (.vtuple [topic, ty, .vlist fields], off, table)
    | 31 => read_sab_thing data fuel off table none   -- read_file_attribute_alist
    | 32 => read_sab_symbol data fuel off table (cs (":"))
    | 33 => readReferenceR data fuel off table        -- read_reference
    | 34 => do    -- read_fat_string
      let (v, off) ← read_fat_string data fuel off
      .ok (v, off, table)
    | 35 => read_sab_thing data fuel off table none   -- read_unique_id
    | 36 => read_sab_thing data fuel off table none   -- read_modification_history
    | 37 => read_sab_thing data fuel off table none   -- read_token_list
    | 38 => do    -- read_file_attribute_string
      let (v, off, table) ← read_sab_string data fuel off table
      match v with
      | .vstr [] => .ok (.vnone, off, table)
      | _ => .ok (v, off, table)
    | 39 => do    -- read_callee_4ple_list
      let (n, off) ← readU16At data off
      let (xs, off, table) ← readCallee4plesN data fuel n off table []
      .ok (.vlist xs, off, table)
    | 40 => do    -- read_picture
      let (ty, off, table) ← read_sab_thing data fuel off table none
      let (fileName, off, table) ← read_sab_thing data fuel off table none
      let (nmv, off, table) ← read_sab_string data fuel off table
      let (contents, off, table) ← read_sab_thing data fuel off table none
      .ok (.vpicture ty fileName nmv contents, off, table)
    | 41 => do    -- read_8_bit_array
      let (n, off) ← readU32At data off
      let (raw, off) := readBytesAt data off n
      .ok (.vbytes raw, off, table)
    | 42 => do    -- read_example_record_marker
      let (ty, off, table) ← read_sab_thing data fuel off table none
      let (enc, off, table) ← read_sab_thing data fuel off table none
      .ok (.vmarker ty enc, off, table)
    | 43 => readReferenceR data fuel off table  -- read_extensible_reference
    | 44 => do    -- read_extensible_reference_take_two
      let (topic, off, table) ← read_sab_thing data fuel off table none
      let (ty, off, table) ← read_sab_thing data fuel off table (some 1)
      let (uid, off, table) ← read_sab_thing data fuel off table none
      let (view, off, table) ← read_sab_thing data fuel off table none
      let (appearance, off, table) ← read_sab_thing data fuel off table none
      let (booleans, off, table) ← read_sab_thing data fuel off table none
      let (fld, off, table) ← read_sab_thing data fuel off table none
      .ok (.vref topic ty uid view appearance
             (if is_nil booleans then .vlist [] else booleans)
             (if is_nil fld then .vlist [] else fld), off, table)
    | 45 => read_sab_string data fuel off table       -- read_character
    | _ => .error ("No SAB reader for code")
termination_by structural fuel

/-- Embeds `read_sab_string`: peek, accept codes 11 and 12 only. -/
def read_sab_string (data : List Nat) (fuel : Nat) (off : Nat)
    (table : SymbolTable) : Except String (SabValue × Nat × SymbolTable) :=
  match fuel with
  | 0 => .error ("fuel exhausted")
  | fuel + 1 => do
    let c ← peekAt data off
    if c = 11 then read_sab_thing data fuel off table (some 11)
    else if c = 12 then read_sab_thing data fuel off table (some 12)
    else .error ("Wanted to read a string")
termination_by structural fuel

/-- Embeds `_read_sab_symbol`: read a string, prepend the package prefix
`pfx`, lower-case, append to the symbol table. -/
def read_sab_symbol (data : List Nat) (fuel : Nat) (off : Nat)
    (table : SymbolTable) (pfx : List Nat) :
    Except String (SabValue × Nat × SymbolTable) :=
  match fuel with
  | 0 => .error ("fuel exhausted")
  | fuel + 1 => do
    let (v, off, table) ← read_sab_string data fuel off table
    match v with
    | .vstr nm =>
      let sym := pfx ++ pyLower nm
      .ok (.vstr sym, off, table ++ [sym])
    | _ => .error ("symbol name not a string")
termination_by structural fuel

/-- Embeds `read_reference` (codes 33 and 43, the latter delegating):
`appearance` is `None` and `booleans` the empty list. -/
def readReferenceR (data : List Nat) (fuel : Nat) (off : Nat)
    (table : SymbolTable) : Except String (SabValue × Nat × SymbolTable) :=
  match fuel with
  | 0 => .error ("fuel exhausted")
  | fuel + 1 => do
    let (topic, off, table) ← read_sab_thing data fuel off table none
    let (ty, off, table) ← read_sab_thing data fuel off table (some 1)
    let (uid, off, table) ← read_sab_thing data fuel off table none
    let (view, off, table) ← read_sab_thing data fuel off table none
    let (fld, off, table) ← read_sab_thing data fuel off table none
    .ok (.vref topic ty uid view .vnone (.vlist [])
           (if is_nil fld then .vlist [] else fld), off, table)
termination_by structural fuel

/-- Embeds `read_field_name` (code 4): read a symbol, lower-case it, and
look it up in `FIELD_NAME_TO_SAB_CODE`; unknown names fail. -/
def readFieldNameR (data : List Nat) (fuel : Nat) (off : Nat)
    (table : SymbolTable) : Except String (SabValue × Nat × SymbolTable) :=
  match fuel with
  | 0 => .error ("fuel exhausted")
  | fuel + 1 => do
    let (fieldName, off, table) ← read_sab_thing data fuel off table none
    match fieldName with
    | .vstr s =>
      let key := pyLower s
      (match FIELD_NAME_TO_SAB_CODE.lookup key with
       | some sab_code => .ok (.vtuple [.vstr key, .vint sab_code], off, table)
       | none => .error ("Not a valid field name"))
    | _ => .error ("Not a valid field name")
termination_by structural fuel

/-- The counted loop of `read_contents_list`/`read_list`: `n` free-dispatch
things. -/
def readThingsN (data : List Nat) (fuel : Nat) (n : Nat) (off : Nat)
    (table : SymbolTable) (acc : List SabValue) :
    Except String (List SabValue × Nat × SymbolTable) :=
  match fuel with
  | 0 => .error ("fuel exhausted")
  | fuel + 1 =>
    match n with
    | 0 => .ok (acc, off, table)
    | n + 1 => do
      let (v, off, table) ← read_sab_thing data fuel off table none
      readThingsN data fuel n off table (acc ++ [v])
termination_by structural fuel

/-- The counted loop of `read_field_alist` and `read_index_item`: a field
name pair (code 4) and then the value of the declared code. -/
def readFieldPairsN (data : List Nat) (fuel : Nat) (n : Nat) (off : Nat)
    (table : SymbolTable) (acc : List SabValue) :
    Except String (List SabValue × Nat × SymbolTable) :=
  match fuel with
  | 0 => .error ("fuel exhausted")
  | fuel + 1 =>
    match n with
    | 0 => .ok (acc, off, table)
    | n + 1 => do
      let (pair, off, table) ← read_sab_thing data fuel off table (some 4)
      match pair with
      | .vtuple [.vstr nm, .vint c] => do
        let (value, off, table) ← read_sab_thing data fuel off table (some c.toNat)
        readFieldPairsN data fuel n off table (acc ++ [.vtuple [.vstr nm, value]])
      | _ => .error ("field name pair malformed")
termination_by structural fuel

/-- The counted loop of `read_envr_mods`: attribute name (code 8) and free
value pairs. -/
def readModsN (data : List Nat) (fuel : Nat) (n : Nat) (off : Nat)
    (table : SymbolTable) (acc : List SabValue) :
    Except String (List SabValue × Nat × SymbolTable) :=
  match fuel with
  | 0 => .error ("fuel exhausted")
  | fuel + 1 =>
    match n with
    | 0 => .ok (acc, off, table)
    | n + 1 => do
      let (nm, off, table) ← read_sab_thing data fuel off table (some 8)
      let (val, off, table) ← read_sab_thing data fuel off table none
      readModsN data fuel n off table (acc ++ [.vtuple [nm, val]])
termination_by structural fuel

/-- The counted loop of `read_index`: `n` index items (code 30). -/
def readIndexItemsN (data : List Nat) (fuel : Nat) (n : Nat) (off : Nat)
    (table : SymbolTable) (acc : List SabValue) :
    Except String (List SabValue × Nat × SymbolTable) :=
  match fuel with
  | 0 => .error ("fuel exhausted")
  | fuel + 1 =>
    match n with
    | 0 => .ok (acc, off, table)
    | n + 1 => do
      let (v, off, table) ← read_sab_thing data fuel off table (some 30)
      readIndexItemsN data fuel n off table (acc ++ [v])
termination_by structural fuel

/-- The counted loop of `read_callee_triple_list` (legacy code 29). -/
def readCalleeTriplesN (data : List Nat) (fuel : Nat) (n : Nat) (off : Nat)
    (table : SymbolTable) (acc : List SabValue) :
    Except String (List SabValue × Nat × SymbolTable) :=
  match fuel with
  | 0 => .error ("fuel exhausted")
  | fuel + 1 =>
    match n with
    | 0 => .ok (acc, off, table)
    | n + 1 => do
      let (topic, off, table) ← read_sab_thing data fuel off table none
      let (ty, off, table) ← read_sab_thing data fuel off table (some 1)
      let (how, off, table) ← read_sab_thing data fuel off table none
      readCalleeTriplesN data fuel n off table (acc ++ [.vtuple [topic, ty, how]])
termination_by structural fuel

/-- The counted loop of `read_callee_4ple_list` (code 39). -/
def readCallee4plesN (data : List Nat) (fuel : Nat) (n : Nat) (off : Nat)
    (table : SymbolTable) (acc : List SabValue) :
    Except String (List SabValue × Nat × SymbolTable) :=
  match fuel with
  | 0 => .error ("fuel exhausted")
  | fuel + 1 =>
    match n with
    | 0 => .ok (acc, off, table)
    | n + 1 => do
      let (topic, off, table) ← read_sab_thing data fuel off table none
      let (ty, off, table) ← read_sab_thing data fuel off table (some 1)
      let (how, off, table) ← read_sab_thing data fuel off table none
      let (uid, off, table) ← read_sab_thing data fuel off table none
      readCallee4plesN data fuel n off table
        (acc ++ [.vtuple [topic, ty, how, uid]])
termination_by structural fuel

end

/- -------- Top-level SAB file readers ----------------------------------- -/

/-- Embeds `SAGE_ID_PATTERN = 0`. -/
def SAGE_ID_PATTERN : Nat := 0

/-- Embeds the `while stream.offset < pos` records loop of `read_sab`; each
record is read with a fresh `SymbolTable ()`. -/
def read_records_loop (data : List Nat) :
    Nat → Nat → Nat → List SabValue → Except String (List SabValue × Nat)
  | 0, _, _, _ => .error ("fuel exhausted")
  | fuel + 1, off, pos, acc =>
    if off < pos then do
      let (record, off2, _) ← read_sab_thing data fuel off [] none
      read_records_loop data fuel off2 pos (acc ++ [record])
    else .ok (acc, off)

/-- Embeds `read_sab` over the file's bytes: header validation,
file-attribute alist (fresh table), section pointers, records (fresh table
each), index (fresh table).  Each top-level step receives the full `fuel`. -/
def read_sab (fuel : Nat) (data : List Nat) :
    Except String (SabValue × List SabValue × SabValue) := do
  let (id_pattern, off) ← readU32At data 0
  if id_pattern ≠ SAGE_ID_PATTERN then .error ("Not a SAB file (bad id pattern)")
  else do
    let (version, off) ← readU8At data off
    if version ≠ 7 then .error ("Incompatible SAB version")
    else do
      let (file_attribute_alist, off, _) ← read_sab_thing data fuel off [] (some 31)
      let (ps, off) ← readU32At data off
      let (pos, _) ← readU32At data off
      let (records, _) ← read_records_loop data fuel ps pos []
      let (index, _, _) ← read_sab_thing data fuel pos [] (some 28)
      .ok (file_attribute_alist, records, index)

/-- Embeds `read_sab_index_only`: the same header, attribute and pointer
reads, then a seek straight to the index. -/
def read_sab_index_only (fuel : Nat) (data : List Nat) :
    Except String (SabValue × SabValue) := do
  let (id_pattern, off) ← readU32At data 0
  if id_pattern ≠ SAGE_ID_PATTERN then .error ("Not a SAB file")
  else do
    let (version, off) ← readU8At data off
    if version ≠ 7 then .error ("Incompatible SAB version")
    else do
      let (file_attribute_alist, off, _) ← read_sab_thing data fuel off [] (some 31)
      let (_, off) ← readU32At data off
      let (pos, _) ← readU32At data off
      let (index, _, _) ← read_sab_thing data fuel pos [] (some 28)
      .ok (file_attribute_alist, index)

/- -------- Index extraction (cross_references.py scan_file) ------------- -/

/-- The repeated `if fname == key: value = fval` assignment in `scan_file`'s
field walk: the last matching field wins. -/
def lastFieldValue (fields : List SabValue) (key : List Nat) : Option SabValue :=
  fields.foldl
    (fun acc f =>
      match f with
      | .vtuple [.vstr nm, v] => if nm == key then some v else acc
      | _ => acc)
    none

/-- The `unique-id` values `scan_file` extracts from an index. -/
def extract_unique_ids (index : SabValue) : List SabValue :=
  match index with
  | .vlist items =>
    items.filterMap (fun item =>
      match item with
      | .vtuple [_, _, .vlist fields] => lastFieldValue fields (cs ("unique-id"))
      | _ => none)
  | _ => []

/-- The `unique-index` values `scan_file` extracts from an index. -/
def extract_unique_indexes (index : SabValue) : List SabValue :=
  match index with
  | .vlist items =>
    items.filterMap (fun item =>
      match item with
      | .vtuple [_, _, .vlist fields] =>
        lastFieldValue fields (cs ("unique-index"))
      | _ => none)
  | _ => []

/- ======================================================================= -/
/- ============================ Theorems ================================= -/
/- ======================================================================= -/

/-- `l[i]? = none` exactly when the index is past the end. -/
theorem get?_none_iff (l : List Nat) (i : Nat) : l[i]? = none ↔ l.length ≤ i :=
  List.getElem?_eq_none_iff

/-- `l[i]? = some b` forces `i < l.length`. -/
theorem get?_some_lt {l : List Nat} {i : Nat} {b : Nat}
    (h : l[i]? = some b) : i < l.length := by
  by_contra hc
  rw [List.getElem?_eq_none_iff.mpr (by omega)] at h
  exact Option.noConfusion h

/-- `l[i]? = none` with `i < k` bounds the length below `k`. -/
theorem len_lt_of_get?_none {l : List Nat} {i k : Nat} (h : l[i]? = none)
    (hik : i < k) : l.length < k :=
  Nat.lt_of_le_of_lt (List.getElem?_eq_none_iff.mp h) hik

/-- C1, corrected part: `read_bytes` on an exhausted stream does not fail —
it returns a truncated (here empty) view and pushes the offset past the
buffer end, contradicting the claim that it fails with `UnexpectedEof` and
that offsets stay within `[0, len]`. -/
theorem C1_counterexample :
    read_bytes ⟨[], 0⟩ 1 = ([], ⟨[], 1⟩) ∧
    (read_bytes ⟨[], 0⟩ 1).2.offset > (SabStream.mk [] 0).data.length := by
  constructor
  · rfl
  · decide

/-- C1, amended: the fixed-width reads (`read_u8`, `read_u16_le`,
`read_u32_le`, `read_float_le`, `read_double_le`) fail exactly when the
requested span exceeds the buffer (raising `IndexError`/`struct.error`, not
an `UnexpectedEof`), and on success the new offset stays within
`[0, len (buffer)]`; `read_bytes (n)` never fails: it returns the possibly
truncated slice `data[offset:offset+n]` and sets the offset to `offset + n`,
which can exceed the buffer length. -/
theorem C1_amended (s : SabStream) (n : Nat) (h : s.offset ≤ s.data.length) :
    read_bytes s n = ((s.data.drop s.offset).take n, ⟨s.data, s.offset + n⟩) ∧
    ((∃ e, read_u8 s = .error e) ↔ s.data.length < s.offset + 1) ∧
    (∀ v s1, read_u8 s = .ok (v, s1) →
      s1.data = s.data ∧ s1.offset = s.offset + 1 ∧ s1.offset ≤ s.data.length) ∧
    ((∃ e, read_u16_le s = .error e) ↔ s.data.length < s.offset + 2) ∧
    (∀ v s1, read_u16_le s = .ok (v, s1) →
      s1.data = s.data ∧ s1.offset = s.offset + 2 ∧ s1.offset ≤ s.data.length) ∧
    ((∃ e, read_u32_le s = .error e) ↔ s.data.length < s.offset + 4) ∧
    (∀ v s1, read_u32_le s = .ok (v, s1) →
      s1.data = s.data ∧ s1.offset = s.offset + 4 ∧ s1.offset ≤ s.data.length) ∧
    ((∃ e, read_float_le s = .error e) ↔ s.data.length < s.offset + 4) ∧
    (∀ v s1, read_float_le s = .ok (v, s1) →
      s1.data = s.data ∧ s1.offset = s.offset + 4 ∧ s1.offset ≤ s.data.length) ∧
    ((∃ e, read_double_le s = .error e) ↔ s.data.length < s.offset + 8) ∧
    (∀ v s1, read_double_le s = .ok (v, s1) →
      s1.data = s.data ∧ s1.offset = s.offset + 8 ∧ s1.offset ≤ s.data.length) := by
  refine ⟨rfl, ?_, ?_, ?_, ?_, ?_, ?_, ?_, ?_, ?_, ?_⟩
  · constructor
    · rintro ⟨e, he⟩
      rcases hx : s.data[s.offset]? with _ | b
      · exact len_lt_of_get?_none hx (by omega)
      · simp [read_u8, hx] at he
    · intro hlt
      have hx : s.data[s.offset]? = none := (get?_none_iff _ _).mpr (by omega)
      exact ⟨("IndexError"), by simp [read_u8, hx]⟩
  · intro v s1 hok
    rcases hx : s.data[s.offset]? with _ | b
    · simp [read_u8, hx] at hok
    · have hlt := get?_some_lt hx
      simp [read_u8, hx] at hok
      obtain ⟨h1, h2⟩ := hok
      subst h2
      refine ⟨rfl, rfl, ?_⟩
      show s.offset + 1 ≤ s.data.length
      omega
  · constructor
    · rintro ⟨e, he⟩
      rcases hx0 : s.data[s.offset]? with _ | b0 <;>
        rcases hx1 : s.data[s.offset + 1]? with _ | b1
      all_goals first
        | (exact len_lt_of_get?_none hx0 (by omega))
        | (exact len_lt_of_get?_none hx1 (by omega))
        | simp [read_u16_le, hx0, hx1] at he
    · intro hlt
      have hx1 : s.data[s.offset + 1]? = none :=
        (get?_none_iff _ _).mpr (by omega)
      rcases hx0 : s.data[s.offset]? with _ | b0
      · exact ⟨("struct.error"), by simp [read_u16_le, hx0, hx1]⟩
      · exact ⟨("struct.error"), by simp [read_u16_le, hx0, hx1]⟩
  · intro v s1 hok
    rcases hx0 : s.data[s.offset]? with _ | b0 <;>
      rcases hx1 : s.data[s.offset + 1]? with _ | b1 <;>
      simp [read_u16_le, hx0, hx1] at hok
    have hlt := get?_some_lt hx1
    obtain ⟨h1, h2⟩ := hok
    subst h2
    refine ⟨rfl, rfl, ?_⟩
    show s.offset + 2 ≤ s.data.length
    omega
  · constructor
    · rintro ⟨e, he⟩
      rcases hx0 : s.data[s.offset]? with _ | b0 <;>
        rcases hx1 : s.data[s.offset + 1]? with _ | b1 <;>
        rcases hx2 : s.data[s.offset + 2]? with _ | b2 <;>
        rcases hx3 : s.data[s.offset + 3]? with _ | b3
      all_goals first
        | (exact len_lt_of_get?_none hx0 (by omega))
        | (exact len_lt_of_get?_none hx1 (by omega))
        | (exact len_lt_of_get?_none hx2 (by omega))
        | (exact len_lt_of_get?_none hx3 (by omega))
        | simp [read_u32_le, hx0, hx1, hx2, hx3] at he
    · intro hlt
      have hx3 : s.data[s.offset + 3]? = none :=
        (get?_none_iff _ _).mpr (by omega)
      rcases hx0 : s.data[s.offset]? with _ | b0 <;>
        rcases hx1 : s.data[s.offset + 1]? with _ | b1 <;>
        rcases hx2 : s.data[s.offset + 2]? with _ | b2 <;>
        exact ⟨("struct.error"), by simp [read_u32_le, hx0, hx1, hx2, hx3]⟩
  · intro v s1 hok
    rcases hx0 : s.data[s.offset]? with _ | b0 <;>
      rcases hx1 : s.data[s.offset + 1]? with _ | b1 <;>
      rcases hx2 : s.data[s.offset + 2]? with _ | b2 <;>
      rcases hx3 : s.data[s.offset + 3]? with _ | b3 <;>
      simp [read_u32_le, hx0, hx1, hx2, hx3] at hok
    have hlt := get?_some_lt hx3
    obtain ⟨h1, h2⟩ := hok
    subst h2
    refine ⟨rfl, rfl, ?_⟩
    show s.offset + 4 ≤ s.data.length
    omega
  · constructor
    · rintro ⟨e, he⟩
      rcases hx0 : s.data[s.offset]? with _ | b0 <;>
        rcases hx1 : s.data[s.offset + 1]? with _ | b1 <;>
        rcases hx2 : s.data[s.offset + 2]? with _ | b2 <;>
        rcases hx3 : s.data[s.offset + 3]? with _ | b3
      all_goals first
        | (exact len_lt_of_get?_none hx0 (by omega))
        | (exact len_lt_of_get?_none hx1 (by omega))
        | (exact len_lt_of_get?_none hx2 (by omega))
        | (exact len_lt_of_get?_none hx3 (by omega))
        | simp [read_float_le, hx0, hx1, hx2, hx3] at he
    · intro hlt
      have hx3 : s.data[s.offset + 3]? = none :=
        (get?_none_iff _ _).mpr (by omega)
      rcases hx0 : s.data[s.offset]? with _ | b0 <;>
        rcases hx1 : s.data[s.offset + 1]? with _ | b1 <;>
        rcases hx2 : s.data[s.offset + 2]? with _ | b2 <;>
        exact ⟨("struct.error"), by simp [read_float_le, hx0, hx1, hx2, hx3]⟩
  · intro v s1 hok
    rcases hx0 : s.data[s.offset]? with _ | b0 <;>
      rcases hx1 : s.data[s.offset + 1]? with _ | b1 <;>
      rcases hx2 : s.data[s.offset + 2]? with _ | b2 <;>
      rcases hx3 : s.data[s.offset + 3]? with _ | b3 <;>
      simp [read_float_le, hx0, hx1, hx2, hx3] at hok
    have hlt := get?_some_lt hx3
    obtain ⟨h1, h2⟩ := hok
    subst h2
    refine ⟨rfl, rfl, ?_⟩
    show s.offset + 4 ≤ s.data.length
    omega
  · constructor
    · rintro ⟨e, he⟩
      rcases hx0 : s.data[s.offset]? with _ | b0 <;>
        rcases hx1 : s.data[s.offset + 1]? with _ | b1 <;>
        rcases hx2 : s.data[s.offset + 2]? with _ | b2 <;>
        rcases hx3 : s.data[s.offset + 3]? with _ | b3 <;>
        rcases hx4 : s.data[s.offset + 4]? with _ | b4 <;>
        rcases hx5 : s.data[s.offset + 5]? with _ | b5 <;>
        rcases hx6 : s.data[s.offset + 6]? with _ | b6 <;>
        rcases hx7 : s.data[s.offset + 7]? with _ | b7
      all_goals first
        | (exact len_lt_of_get?_none hx0 (by omega))
        | (exact len_lt_of_get?_none hx1 (by omega))
        | (exact len_lt_of_get?_none hx2 (by omega))
        | (exact len_lt_of_get?_none hx3 (by omega))
        | (exact len_lt_of_get?_none hx4 (by omega))
        | (exact len_lt_of_get?_none hx5 (by omega))
        | (exact len_lt_of_get?_none hx6 (by omega))
        | (exact len_lt_of_get?_none hx7 (by omega))
        | simp [read_double_le, hx0, hx1, hx2, hx3, hx4, hx5, hx6, hx7] at he
    · intro hlt
      have hx7 : s.data[s.offset + 7]? = none :=
        (get?_none_iff _ _).mpr (by omega)
      rcases hx0 : s.data[s.offset]? with _ | b0 <;>
        rcases hx1 : s.data[s.offset + 1]? with _ | b1 <;>
        rcases hx2 : s.data[s.offset + 2]? with _ | b2 <;>
        rcases hx3 : s.data[s.offset + 3]? with _ | b3 <;>
        rcases hx4 : s.data[s.offset + 4]? with _ | b4 <;>
        rcases hx5 : s.data[s.offset + 5]? with _ | b5 <;>
        rcases hx6 : s.data[s.offset + 6]? with _ | b6 <;>
        exact ⟨("struct.error"),
          by simp [read_double_le, hx0, hx1, hx2, hx3, hx4, hx5, hx6, hx7]⟩
  · intro v s1 hok
    rcases hx0 : s.data[s.offset]? with _ | b0 <;>
      rcases hx1 : s.data[s.offset + 1]? with _ | b1 <;>
      rcases hx2 : s.data[s.offset + 2]? with _ | b2 <;>
      rcases hx3 : s.data[s.offset + 3]? with _ | b3 <;>
      rcases hx4 : s.data[s.offset + 4]? with _ | b4 <;>
      rcases hx5 : s.data[s.offset + 5]? with _ | b5 <;>
      rcases hx6 : s.data[s.offset + 6]? with _ | b6 <;>
      rcases hx7 : s.data[s.offset + 7]? with _ | b7 <;>
      simp [read_double_le, hx0, hx1, hx2, hx3, hx4, hx5, hx6, hx7] at hok
    have hlt := get?_some_lt hx7
    obtain ⟨h1, h2⟩ := hok
    subst h2
    refine ⟨rfl, rfl, ?_⟩
    show s.offset + 8 ≤ s.data.length
    omega

/-- C1, witness: the amended theorem applied to the one-byte stream
`⟨[5], 0⟩` with a two-byte `read_bytes` request. -/
theorem C1_witness : read_bytes ⟨[5], 0⟩ 2 = ([5], ⟨[5], 2⟩) := by
  have h := (C1_amended ⟨[5], 0⟩ 2 (by decide)).1
  simpa using h

/-- C3, counterexample: the binary graphics keyword table has exactly 86
entries, not the 95 the claim states. -/
theorem C3_counterexample :
    BINARY_GRAPHICS_KEYWORDS.length = 86 ∧
    BINARY_GRAPHICS_KEYWORDS.length ≠ 95 := by
  constructor
  · rfl
  · decide

/-- C3, amended: the keyword table is a fixed table of exactly 86 entries,
beginning `:bevel`, `:butt`, `:miter` and ending
`:allow-sensitive-inferiors` in the enumerated order, and the keyword
command (opcode 64) reads one u8 and returns the keyword at that 0-based
index. -/
theorem C3_amended (s : SabStream) (b : Nat)
    (hb : s.data[s.offset]? = some b) (hlt : b < 86) :
    BINARY_GRAPHICS_KEYWORDS.length = 86 ∧
    BINARY_GRAPHICS_KEYWORDS[0]? = some (":bevel") ∧
    BINARY_GRAPHICS_KEYWORDS[1]? = some (":butt") ∧
    BINARY_GRAPHICS_KEYWORDS[2]? = some (":miter") ∧
    BINARY_GRAPHICS_KEYWORDS[85]? = some (":allow-sensitive-inferiors") ∧
    ∃ k, BINARY_GRAPHICS_KEYWORDS[b]? = some k ∧
      com_keyword s = .ok (k, { s with offset := s.offset + 1 }) := by
  refine ⟨rfl, rfl, rfl, rfl, rfl, ?_⟩
  have hlen : b < BINARY_GRAPHICS_KEYWORDS.length := by
    have : BINARY_GRAPHICS_KEYWORDS.length = 86 := rfl
    omega
  refine ⟨BINARY_GRAPHICS_KEYWORDS[b], List.getElem?_eq_getElem hlen, ?_⟩
  simp only [com_keyword, read_u8, hb, List.getElem?_eq_getElem hlen,
    Bind.bind, Except.bind]

/-- C3, witness: the amended theorem on the one-byte stream `[3]`, whose
keyword is `:none`. -/
theorem C3_witness :
    ∃ k, BINARY_GRAPHICS_KEYWORDS[(3 : Nat)]? = some k ∧
      com_keyword ⟨[3], 0⟩ = .ok (k, ⟨[3], 1⟩) := by
  have h := (C3_amended ⟨[3], 0⟩ 3 (by decide) (by decide)).2.2.2.2.2
  simpa using h

/-- C9: the small-integer command (opcode 52) returns its u8 operand minus
128, so every decoded small integer lies in `[-128, 127]`, and the
medium-integer command (opcode 53) returns its little-endian u16 operand
minus 32768. -/
theorem C9_integer_commands (s s2 : SabStream) (b lo hi : Nat)
    (hb : s.data[s.offset]? = some b) (hb255 : b ≤ 255)
    (hlo : s2.data[s2.offset]? = some lo)
    (hhi : s2.data[s2.offset + 1]? = some hi) :
    com_small_integer s = .ok ((b : Int) - 128, { s with offset := s.offset + 1 }) ∧
    -128 ≤ (b : Int) - 128 ∧ (b : Int) - 128 ≤ 127 ∧
    com_medium_integer s2 =
      .ok ((lo : Int) + (hi : Int) * 256 - 32768,
           { s2 with offset := s2.offset + 1 + 1 }) := by
  refine ⟨?_, by omega, by omega, ?_⟩
  · simp only [com_small_integer, read_u8, hb, Bind.bind, Except.bind]
  · simp only [com_medium_integer, read_u8, hlo, hhi, Bind.bind, Except.bind]

/-- C9, witness: opcode 52 with operand `0xC8` decodes to `+72` (spec
scenario 5), and a medium integer `0x0000` decodes to `-32768`. -/
theorem C9_witness :
    com_small_integer ⟨[0xc8], 0⟩ = .ok (72, ⟨[0xc8], 1⟩) ∧
    com_medium_integer ⟨[0, 0], 0⟩ = .ok (-32768, ⟨[0, 0], 2⟩) := by
  have h := C9_integer_commands ⟨[0xc8], 0⟩ ⟨[0, 0], 0⟩ 0xc8 0 0
    (by decide) (by decide) (by decide) (by decide)
  exact ⟨by simpa using h.1, by simpa using h.2.2.2⟩

/-- C6: the Genera charset recoder maps two consecutive `0x8D` bytes to the
paragraph-break sentinel `U+E000`, maps each byte `0x00`-`0x1F` through the
fixed 32-entry table, expands the tab byte `0x89` to spaces up to the next
multiple-of-8 column, resets the column counter on every line break and
paragraph break, and in particular recodes `"x\x02y\x8d\x8dz\x89q"` starting
at column 0 to `"x" ++ alpha ++ "y" ++ U+E000 ++ "z" ++ seven spaces ++ "q"`. -/
theorem C6_charset :
    recode_genera_characters [0x78, 0x02, 0x79, 0x8d, 0x8d, 0x7a, 0x89, 0x71] =
      [0x78, 0x3b1, 0x79, 0xe000, 0x7a,
       0x20, 0x20, 0x20, 0x20, 0x20, 0x20, 0x20, 0x71] ∧
    (∀ rest, replaceParaMarkers (0x8d :: 0x8d :: rest) =
      PARAGRAPH_MARKER :: replaceParaMarkers rest) ∧
    (∀ col c rest, c < 0x20 →
      ∃ v, generaLookup c = some v ∧
        expandChars col (c :: rest) = v :: expandChars (col + 1) rest) ∧
    (∀ col rest, expandChars col (C1_TAB :: rest) =
      List.replicate (TAB_WIDTH - col % TAB_WIDTH) 0x20 ++
        expandChars (col + (TAB_WIDTH - col % TAB_WIDTH)) rest) ∧
    (∀ col rest, expandChars col (LINE_BREAK_MARKER :: rest) =
      LINE_BREAK_MARKER :: expandChars 0 rest) ∧
    (∀ col rest, expandChars col (PARAGRAPH_MARKER :: rest) =
      PARAGRAPH_MARKER :: expandChars 0 rest) := by
  refine ⟨rfl, ?_, ?_, ?_, ?_, ?_⟩
  · intro rest; rfl
  · intro col c rest hc
    interval_cases c <;> exact ⟨_, rfl, rfl⟩
  · intro col rest; rfl
  · intro col rest; rfl
  · intro col rest; rfl

/-- C6, witness: the theorem's table conjunct applied at column 0 to the
single byte `0x02` (Greek alpha). -/
theorem C6_witness :
    recode_genera_characters [0x78, 0x02, 0x79, 0x8d, 0x8d, 0x7a, 0x89, 0x71] =
      [0x78, 0x3b1, 0x79, 0xe000, 0x7a,
       0x20, 0x20, 0x20, 0x20, 0x20, 0x20, 0x20, 0x71] ∧
    (∃ v, generaLookup 2 = some v ∧ expandChars 0 [2] = [v]) := by
  refine ⟨C6_charset.1, ?_⟩
  obtain ⟨v, hv, he⟩ := C6_charset.2.2.1 0 2 [] (by decide)
  exact ⟨v, hv, by simpa using he⟩

/-- `extend_point` keeps a bounding box that contains the origin containing
the origin. -/
theorem extend_point_origin (bb : BoundingBox) (x y : Int)
    (h : bb.x1 ≤ 0 ∧ bb.y1 ≤ 0 ∧ 0 ≤ bb.x2 ∧ 0 ≤ bb.y2) :
    (bb.extend_point x y).x1 ≤ 0 ∧ (bb.extend_point x y).y1 ≤ 0 ∧
    0 ≤ (bb.extend_point x y).x2 ∧ 0 ≤ (bb.extend_point x y).y2 := by
  obtain ⟨h1, h2, h3, h4⟩ := h
  refine ⟨?_, ?_, ?_, ?_⟩ <;> simp [BoundingBox.extend_point]
  · exact Or.inl h1
  · exact Or.inl h2
  · exact Or.inl h3
  · exact Or.inl h4

/-- `extend_box` keeps a bounding box that contains the origin containing
the origin (whatever the merged box is). -/
theorem extend_box_origin (bb other : BoundingBox)
    (h : bb.x1 ≤ 0 ∧ bb.y1 ≤ 0 ∧ 0 ≤ bb.x2 ∧ 0 ≤ bb.y2) :
    (bb.extend_box other).x1 ≤ 0 ∧ (bb.extend_box other).y1 ≤ 0 ∧
    0 ≤ (bb.extend_box other).x2 ∧ 0 ≤ (bb.extend_box other).y2 := by
  obtain ⟨h1, h2, h3, h4⟩ := h
  refine ⟨?_, ?_, ?_, ?_⟩ <;> simp [BoundingBox.extend_box]
  · exact Or.inl h1
  · exact Or.inl h2
  · exact Or.inl h3
  · exact Or.inl h4

/-- The `_render_ops` loop only ever extends the box by min/max updates, so
origin containment is invariant. -/
theorem renderOpsBB_origin (ops : List GForm) :
    ∀ (t : GTransform) (bb : BoundingBox),
      bb.x1 ≤ 0 ∧ bb.y1 ≤ 0 ∧ 0 ≤ bb.x2 ∧ 0 ≤ bb.y2 →
      (renderOpsBB t bb ops).x1 ≤ 0 ∧ (renderOpsBB t bb ops).y1 ≤ 0 ∧
      0 ≤ (renderOpsBB t bb ops).x2 ∧ 0 ≤ (renderOpsBB t bb ops).y2 := by
  induction ops with
  | nil => intro t bb h; simpa [renderOpsBB] using h
  | cons op rest ih =>
    intro t bb h
    cases op with
    | point x y options =>
      simpa [renderOpsBB] using ih _ _ (extend_point_origin bb _ _ h)
    | line sx sy ex ey options =>
      simpa [renderOpsBB] using
        ih _ _ (extend_point_origin _ _ _ (extend_point_origin bb _ _ h))
    | lines points options => simpa [renderOpsBB] using ih _ _ h
    | rect l tp r btm options =>
      simpa [renderOpsBB] using
        ih _ _ (extend_point_origin _ _ _ (extend_point_origin bb _ _ h))
    | triangle ax ay bx bb' cx cy options =>
      simpa [renderOpsBB] using ih _ _ h
    | polygon points options => simpa [renderOpsBB] using ih _ _ h
    | ellipse cx cy rx ry options => simpa [renderOpsBB] using ih _ _ h
    | bezier sx sy ex ey c1x c1y c2x c2y options =>
      simpa [renderOpsBB] using ih _ _ h
    | cubicSpline points options => simpa [renderOpsBB] using ih _ _ h
    | pathOp subOps options => simpa [renderOpsBB] using ih _ _ h
    | strAt s x y options =>
      simpa [renderOpsBB] using
        ih _ _ (extend_point_origin _ _ _ (extend_point_origin bb _ _ h))
    | strImage s x y options =>
      simpa [renderOpsBB] using
        ih _ _ (extend_point_origin _ _ _ (extend_point_origin bb _ _ h))
    | arcTo tox toy tix tiy radius options =>
      simpa [renderOpsBB] using ih _ _ h
    | image img left top options =>
      cases img with
      | raster byteSize w hh dataLen =>
        simpa [renderOpsBB] using
          ih _ _ (extend_point_origin _ _ _ (extend_point_origin bb _ _ h))
      | notRaster => simpa [renderOpsBB] using ih _ _ h
    | lineTo ex ey options => simpa [renderOpsBB] using ih _ _ h
    | closePath options => simpa [renderOpsBB] using ih _ _ h
    | setCurrentPosition x y options => simpa [renderOpsBB] using ih _ _ h
    | graphicsTransform r11 r12 r21 r22 tx ty =>
      simpa [renderOpsBB] using ih _ _ h
    | scanConversionMode outputForms options =>
      simpa [renderOpsBB] using ih _ _ (extend_box_origin bb _ h)

/-- C10: for every list of decoded graphics forms, the bounding box the SVG
renderer computes contains the origin — it starts at `(0, 0, 0, 0)` and is
only ever extended by min/max updates — so the emitted `viewBox` includes
the point `(0, 0)` and has non-negative width and height. -/
theorem C10_bbox_contains_origin (ops : List GForm) :
    (render_picture_bbox ops).x1 ≤ 0 ∧ (render_picture_bbox ops).y1 ≤ 0 ∧
    0 ≤ (render_picture_bbox ops).x2 ∧ 0 ≤ (render_picture_bbox ops).y2 ∧
    0 ≤ (render_picture_bbox ops).x2 - (render_picture_bbox ops).x1 ∧
    0 ≤ (render_picture_bbox ops).y2 - (render_picture_bbox ops).y1 := by
  have h := renderOpsBB_origin ops idTransform bbInit
    (by refine ⟨?_, ?_, ?_, ?_⟩ <;> simp [bbInit])
  obtain ⟨h1, h2, h3, h4⟩ := h
  simp only [render_picture_bbox]
  exact ⟨h1, h2, h3, h4, by omega, by omega⟩

/-- C4, counterexample: `resolve_reference` has no upper-cased (or
lower-cased) topic-name fallback.  With `by_name = {"CAR" : ...}` and no
id/index entries, resolving unique-id `"u9"` with topic `"car"` yields
nothing, while the spec's procedure (`resolve_reference_spec`, whose step 3
also tries the upper- and lower-cased name) resolves it. -/
theorem C4_counterexample :
    resolve_reference
      ⟨[], [],
       [(cs ("CAR"), (cs ("doc/cl/list.sab.~5~"), .pstr (cs ("u1")),
         cs ("function")))]⟩
      (.pstr (cs ("u9"))) (some (cs ("car"))) = none ∧
    resolve_reference_spec
      ⟨[], [],
       [(cs ("CAR"), (cs ("doc/cl/list.sab.~5~"), .pstr (cs ("u1")),
         cs ("function")))]⟩
      (.pstr (cs ("u9"))) (some (cs ("car"))) =
      some (cs ("doc/cl/list.sab.~5~"), cs ("CAR"), cs ("function")) := by
  constructor <;> rfl

/-- C4, amended: during HTML rendering a reference is resolved by trying, in
this order: (1) exact `unique_id` match in the by-id map; (2) if `unique_id`
is an integer, match in the by-index map; (3) a lookup of the exact topic
name only (guarded by the name being a non-empty string) in the by-name map
— there is no upper- or lower-cased fallback for references; a reference
resolvable by one of these steps is resolved by the first applicable step. -/
theorem C4_amended (reg : RecordRegistry) (uid : PyKey)
    (topic : Option (List Nat)) :
    (∀ info, reg.by_id.lookup uid = some info →
      resolve_reference reg uid topic = some info) ∧
    (∀ n info, reg.by_id.lookup uid = none → uid = .pint n →
      reg.by_index.lookup n = some info →
      resolve_reference reg uid topic = some info) ∧
    (∀ t info, reg.by_id.lookup uid = none →
      (match uid with
       | .pint n => reg.by_index.lookup n = none
       | .pstr _ => True) →
      topic = some t → t ≠ [] → reg.by_name.lookup t = some info →
      resolve_reference reg uid topic = some (info.1, t, info.2.2)) ∧
    (∀ t, reg.by_id.lookup uid = none →
      (match uid with
       | .pint n => reg.by_index.lookup n = none
       | .pstr _ => True) →
      topic = some t → reg.by_name.lookup t = none →
      resolve_reference reg uid topic = none) := by
  refine ⟨?_, ?_, ?_, ?_⟩
  · intro info hid
    simp [resolve_reference, hid]
  · intro n info hid huid hidx
    subst huid
    simp [resolve_reference, hid, hidx]
  · intro t info hid hidx htopic ht hname
    subst htopic
    cases uid with
    | pstr s => simp [resolve_reference, hid, ht, hname]
    | pint n =>
      have hidx2 : reg.by_index.lookup n = none := hidx
      simp [resolve_reference, hid, hidx2, ht, hname]
  · intro t hid hidx htopic hname
    subst htopic
    cases uid with
    | pstr s =>
      by_cases ht : t = [] <;> simp [resolve_reference, hid, ht, hname]
    | pint n =>
      have hidx2 : reg.by_index.lookup n = none := hidx
      by_cases ht : t = [] <;> simp [resolve_reference, hid, hidx2, ht, hname]

/-- C4, witness: the amended theorem's step-1 and step-3 cases on concrete
registries (step 3 resolving `"CAR"` exactly). -/
theorem C4_witness :
    resolve_reference
      ⟨[(.pstr (cs ("u1")), (cs ("a.sab"), cs ("A"), cs ("section")))], [], []⟩
      (.pstr (cs ("u1"))) none =
      some (cs ("a.sab"), cs ("A"), cs ("section")) ∧
    resolve_reference
      ⟨[], [],
       [(cs ("CAR"), (cs ("doc/cl/list.sab.~5~"), .pstr (cs ("u1")),
         cs ("function")))]⟩
      (.pstr (cs ("u9"))) (some (cs ("CAR"))) =
      some (cs ("doc/cl/list.sab.~5~"), cs ("CAR"), cs ("function")) := by
  constructor
  · exact (C4_amended _ _ _).1 _ (by rfl)
  · exact (C4_amended
      ⟨[], [],
       [(cs ("CAR"), (cs ("doc/cl/list.sab.~5~"), .pstr (cs ("u1")),
         cs ("function")))]⟩
      (.pstr (cs ("u9"))) (some (cs ("CAR")))).2.2.1
      (cs ("CAR")) _ (by rfl) trivial rfl (by decide) (by rfl)

/-- A found rightmost occurrence shifts by one under cons. -/
theorem rfindPair_cons_of_some {p q c i : Nat} {l : List Nat}
    (h : rfindPair p q l = some i) :
    rfindPair p q (c :: l) = some (i + 1) := by
  cases l with
  | nil => simp [rfindPair] at h
  | cons d r => simp [rfindPair, h]

/-- No `.~` occurs in a digit string followed by a closing `~`. -/
theorem rfindPair_digits (ds : List Nat) (hds : ds.all isDigitChar = true) :
    rfindPair 0x2e 0x7e (ds ++ [0x7e]) = none := by
  induction ds with
  | nil => rfl
  | cons d ds ih =>
    simp only [List.all_cons, Bool.and_eq_true] at hds
    obtain ⟨hd, hds'⟩ := hds
    have ih' := ih hds'
    have hd' : ¬(d = 0x2e) := by simp [isDigitChar] at hd; omega
    rcases hsh : ds ++ [0x7e] with _ | ⟨e, rest2⟩
    · simp at hsh
    · rw [show d :: ds ++ [0x7e] = d :: (ds ++ [0x7e]) from rfl, hsh]
      rw [hsh] at ih'
      simp [rfindPair, ih', hd']

/-- The rightmost `.~` of `".sab.~" ++ tail` sits at index 4 when `tail`
contains none. -/
theorem rfindPair_core (tail : List Nat)
    (htail : rfindPair 0x2e 0x7e tail = none) :
    rfindPair 0x2e 0x7e
      (0x2e :: 0x73 :: 0x61 :: 0x62 :: 0x2e :: 0x7e :: tail) = some 4 := by
  have h5 : rfindPair 0x2e 0x7e (0x7e :: tail) = none := by
    cases tail with
    | nil => rfl
    | cons e r => simp [rfindPair, htail]
  have h4 : rfindPair 0x2e 0x7e (0x2e :: 0x7e :: tail) = some 0 := by
    cases tail with
    | nil => rfl
    | cons e r => simp [rfindPair, htail]
  exact rfindPair_cons_of_some (rfindPair_cons_of_some
    (rfindPair_cons_of_some (rfindPair_cons_of_some h4)))

/-- Prepending shifts a found rightmost occurrence by the prefix length. -/
theorem rfindPair_stem (stem : List Nat) {l : List Nat} {i : Nat}
    (h : rfindPair 0x2e 0x7e l = some i) :
    rfindPair 0x2e 0x7e (stem ++ l) = some (stem.length + i) := by
  induction stem with
  | nil => simpa using h
  | cons c stem ih =>
    rw [List.cons_append, rfindPair_cons_of_some ih]
    congr 1
    simp only [List.length_cons]
    omega

/-- A found occurrence means the pattern occurs. -/
theorem containsPair_of_rfindPair {p q : Nat} :
    ∀ (l : List Nat) (i : Nat), rfindPair p q l = some i →
      containsPair p q l = true := by
  intro l
  induction l with
  | nil => intro i h; simp [rfindPair] at h
  | cons c rest ih =>
    intro i h
    cases rest with
    | nil => simp [rfindPair] at h
    | cons d r =>
      rcases hr : rfindPair p q (d :: r) with _ | j
      · rw [rfindPair, hr] at h
        simp only [containsPair]
        by_cases hc : c = p ∧ d = q
        · simp [hc]
        · rw [if_neg hc] at h
          exact absurd h (by simp)
      · simp [containsPair, ih _ hr]

/-- `get_html_path` on a canonical version-suffixed SAB path: strip the
version suffix, replace `.sab` by `.html`. -/
theorem get_html_path_canonical (stem ds : List Nat)
    (hds : ds.all isDigitChar = true) :
    get_html_path (stem ++ cs (".sab.~") ++ ds ++ [0x7e]) =
      stem ++ cs (".html") := by
  have hcs : cs (".sab.~") = [0x2e, 0x73, 0x61, 0x62, 0x2e, 0x7e] := rfl
  have htail := rfindPair_digits ds hds
  have hcore := rfindPair_core (ds ++ [0x7e]) htail
  have hfind : rfindPair 0x2e 0x7e (stem ++ cs (".sab.~") ++ ds ++ [0x7e]) =
      some (stem.length + 4) := by
    have h := rfindPair_stem stem hcore
    rw [hcs]
    simpa [List.append_assoc] using h
  have hcontains : containsPair 0x2e 0x7e
      (stem ++ cs (".sab.~") ++ ds ++ [0x7e]) = true :=
    containsPair_of_rfindPair _ _ hfind
  have htake : (stem ++ cs (".sab.~") ++ ds ++ [0x7e]).take (stem.length + 4) =
      stem ++ cs (".sab") := by
    rw [List.append_assoc, List.append_assoc]
    rw [List.take_append_eq_append_take]
    rw [List.take_of_length_le (by omega)]
    have harith : stem.length + 4 - stem.length = 4 := by omega
    rw [harith]
    congr 1
  have hends : pyEndsWith (cs (".sab")) (stem ++ cs (".sab")) = true := by
    simp only [pyEndsWith, List.length_append]
    have : stem.length + (cs (".sab")).length - (cs (".sab")).length =
        stem.length := by omega
    rw [this, List.drop_left]
    simp
  have hfinal : (stem ++ cs (".sab")).take ((stem ++ cs (".sab")).length - 4) =
      stem := by
    have hlen : (stem ++ cs (".sab")).length = stem.length + 4 := by simp [cs]
    rw [hlen]
    have : stem.length + 4 - 4 = stem.length := by omega
    rw [this, List.take_left]
  simp only [get_html_path, hcontains, if_true, hfind, htake, hends, hfinal]

/-- C5, counterexample: `get_html_path` is not injective on the SAB paths
selected for the build — two distinct versions of the same file (both with
`.sab.` in the name) map to the same HTML path. -/
theorem C5_counterexample :
    get_html_path (cs ("doc/foo.sab.~1~")) =
      get_html_path (cs ("doc/foo.sab.~2~")) ∧
    cs ("doc/foo.sab.~1~") ≠ cs ("doc/foo.sab.~2~") ∧
    containsSeq (cs (".sab.")) (cs ("doc/foo.sab.~1~")) = true ∧
    containsSeq (cs (".sab.")) (cs ("doc/foo.sab.~2~")) = true := by
  refine ⟨?_, ?_, ?_, ?_⟩ <;> decide

/-- C5, amended: `get_html_path` strips the trailing version suffix
`.~<digits>~` and replaces the terminal `.sab` with `.html` (so
`doc/clim/foo.sab.~56~` maps to `doc/clim/foo.html`); the mapping is not
injective on all selected paths — paths differing only in the version
suffix collide — but two canonical paths `stem ++ ".sab.~" ++ digits ++ "~"`
map to the same HTML path exactly when their stems are equal. -/
theorem C5_amended (stem1 stem2 ds1 ds2 : List Nat)
    (h1 : ds1.all isDigitChar = true) (h2 : ds2.all isDigitChar = true) :
    get_html_path (stem1 ++ cs (".sab.~") ++ ds1 ++ [0x7e]) =
      stem1 ++ cs (".html") ∧
    (get_html_path (stem1 ++ cs (".sab.~") ++ ds1 ++ [0x7e]) =
       get_html_path (stem2 ++ cs (".sab.~") ++ ds2 ++ [0x7e]) ↔
     stem1 = stem2) := by
  have g1 := get_html_path_canonical stem1 ds1 h1
  have g2 := get_html_path_canonical stem2 ds2 h2
  refine ⟨g1, ?_⟩
  rw [g1, g2]
  constructor
  · intro h
    exact List.append_inj_left' h rfl
  · rintro rfl; rfl

/-- C5, witness: the amended theorem on the spec's example
`doc/clim/foo.sab.~56~`. -/
theorem C5_witness :
    get_html_path (cs ("doc/clim/foo") ++ cs (".sab.~") ++ cs ("56") ++ [0x7e]) =
      cs ("doc/clim/foo") ++ cs (".html") :=
  (C5_amended (cs ("doc/clim/foo")) (cs ("doc/clim/foo")) (cs ("56"))
    (cs ("56")) (by decide) (by decide)).1

/-- The pieces `_split_out_paragraph_markers` makes from one text item are
strings and markers, never environments. -/
theorem partsToItems_no_nexp (b : Bool) (ps : List (List Nat)) :
    ∀ el ∈ partsToItems b ps, isNexParagraph el = false := by
  induction ps generalizing b with
  | nil => intro el he; simp [partsToItems] at he
  | cons p ps ih =>
    intro el he
    simp only [partsToItems, List.mem_append] at he
    rcases he with (he | he) | he
    · rcases b with _ | _
      · simp at he
        simp [he, isNexParagraph]
      · simp at he
    · by_cases hp : p ≠ []
      · simp [hp] at he
        simp [he, isNexParagraph]
      · simp [hp] at he
    · exact ih false el he

/-- One pass-through or split item yields no `nex-paragraph` nodes. -/
theorem splitOneItem_no_nexp (item : SabValue)
    (h : isNexParagraph item = false) :
    ∀ el ∈ splitOneItem item, isNexParagraph el = false := by
  intro el he
  cases item
  case vstr s =>
    simp only [splitOneItem] at he
    by_cases hc : s.contains PARAGRAPH_MARKER = true
    · rw [if_pos hc] at he
      exact partsToItems_no_nexp true _ el he
    · rw [if_neg hc] at he
      simp at he
      subst he
      exact h
  all_goals (simp only [splitOneItem] at he; simp at he; subst he; exact h)

/-- `_split_out_paragraph_markers` introduces no `nex-paragraph` nodes. -/
theorem split_no_nexp (lst : List SabValue)
    (hin : ∀ el ∈ lst, isNexParagraph el = false) :
    ∀ el ∈ split_out_paragraph_markers lst, isNexParagraph el = false := by
  induction lst with
  | nil => intro el he; simp [split_out_paragraph_markers] at he
  | cons item rest ih =>
    intro el he
    simp only [split_out_paragraph_markers, List.mem_append] at he
    rcases he with he | he
    · exact splitOneItem_no_nexp item (hin _ (by simp)) el he
    · exact ih (fun x hx => hin x (by simp [hx])) el he

/-- The synthetic tab environment is not a `nex-paragraph`. -/
theorem nexTabEnvr_no_nexp (l : List SabValue) :
    isNexParagraph (nexTabEnvr l) = false := by
  simp [nexTabEnvr, isNexParagraph, pyStr]
  decide

/-- `_fix_up_tabs` introduces no `nex-paragraph` nodes. -/
theorem tabs_no_nexp (lst : List SabValue) :
    ∀ (thisTab : Option (List SabValue)),
      (∀ el ∈ lst, isNexParagraph el = false) →
      ∀ el ∈ fixUpTabsAux thisTab lst, isNexParagraph el = false := by
  induction lst with
  | nil =>
    intro thisTab _ el he
    cases thisTab with
    | none => simp [fixUpTabsAux] at he
    | some l =>
      simp [fixUpTabsAux] at he
      subst he
      exact nexTabEnvr_no_nexp l
  | cons x rest ih =>
    intro thisTab hin el he
    have hx : isNexParagraph x = false := hin _ (by simp)
    have hrest : ∀ e ∈ rest, isNexParagraph e = false :=
      fun e h => hin e (by simp [h])
    by_cases h1 : isTabCommand x = true
    · simp only [fixUpTabsAux, h1, if_true] at he
      exact ih _ hrest el he
    · by_cases h2 : isPMarker x = true
      · cases thisTab with
        | none =>
          simp only [fixUpTabsAux, h1, h2, Bool.false_eq_true, if_false,
            if_true, List.nil_append] at he
          rcases List.mem_cons.mp he with rfl | hm
          · exact hx
          · exact ih none hrest el hm
        | some l =>
          simp only [fixUpTabsAux, h1, h2, Bool.false_eq_true, if_false,
            if_true] at he
          rcases List.mem_append.mp he with hm | hm
          · simp at hm
            subst hm
            exact nexTabEnvr_no_nexp l
          · rcases List.mem_cons.mp hm with rfl | hm
            · exact hx
            · exact ih none hrest el hm
      · cases thisTab with
        | some l =>
          simp only [fixUpTabsAux, h1, h2, Bool.false_eq_true, if_false] at he
          exact ih _ hrest el he
        | none =>
          simp only [fixUpTabsAux, h1, h2, Bool.false_eq_true, if_false] at he
          rcases List.mem_cons.mp he with rfl | hm
          · exact hx
          · exact ih none hrest el hm

/-- A block-level environment is never a `nex-paragraph`, so it satisfies
the invariant trivially. -/
theorem block_envr_free (el : SabValue) (h : is_block_envr el = true) :
    nexParagraphDirectBlockFree el = true := by
  match el, h with
  | .venvr nm mods cts, h =>
    simp only [is_block_envr] at h
    have hne : (pyStr nm == cs ("nex-paragraph")) = false := by
      by_contra hc
      simp only [Bool.not_eq_false, beq_iff_eq] at hc
      rw [hc] at h
      have : ¬ (BLOCK_ENVRS.contains (cs ("nex-paragraph")) = true) := by decide
      exact this h
    cases cts with
    | vlist contents => simp [nexParagraphDirectBlockFree, hne]
    | vstr s => simp [nexParagraphDirectBlockFree]
    | vint n => simp [nexParagraphDirectBlockFree]
    | vfloatLit s => simp [nexParagraphDirectBlockFree]
    | vbytes bs => simp [nexParagraphDirectBlockFree]
    | vnone => simp [nexParagraphDirectBlockFree]
    | vtuple xs => simp [nexParagraphDirectBlockFree]
    | vrecord a c d => simp [nexParagraphDirectBlockFree]
    | venvr a c d => simp [nexParagraphDirectBlockFree]
    | vcommand a c => simp [nexParagraphDirectBlockFree]
    | vref a c d e f g j => simp [nexParagraphDirectBlockFree]
    | vpicture a c d e => simp [nexParagraphDirectBlockFree]
    | vfspec a => simp [nexParagraphDirectBlockFree]
    | vmarker a c => simp [nexParagraphDirectBlockFree]
    | vpmarker => simp [nexParagraphDirectBlockFree]

/-- An element that is not a `nex-paragraph` satisfies the invariant
trivially. -/
theorem not_nexp_free (el : SabValue) (h : isNexParagraph el = false) :
    nexParagraphDirectBlockFree el = true := by
  cases el with
  | venvr nm mods cts =>
    simp only [isNexParagraph] at h
    cases cts <;> simp [nexParagraphDirectBlockFree, h]
  | vstr s => rfl
  | vint n => rfl
  | vfloatLit s => rfl
  | vbytes bs => rfl
  | vnone => rfl
  | vlist xs => rfl
  | vtuple xs => rfl
  | vrecord a c d => rfl
  | vcommand a c => rfl
  | vref a c d e f g j => rfl
  | vpicture a c d e => rfl
  | vfspec a => rfl
  | vmarker a c => rfl
  | vpmarker => rfl

/-- Everything `_flush_paragraph` emits satisfies the invariant when the
accumulated run contains no block environment. -/
theorem flushParagraph_free (thisP : Option (List SabValue))
    (h : ∀ x ∈ thisP.getD [], is_block_envr x = false) :
    ∀ e ∈ flushParagraph thisP, nexParagraphDirectBlockFree e = true := by
  intro e he
  cases thisP with
  | none => simp [flushParagraph] at he
  | some l =>
    simp only [flushParagraph] at he
    by_cases hf : (l.filter (fun x => !(isEmptyStr x))).isEmpty
    · rw [if_pos hf] at he; simp at he
    · rw [if_neg hf] at he
      simp at he
      subst he
      simp only [nexParagraphDirectBlockFree]
      rw [if_pos (by decide)]
      rw [List.all_eq_true]
      intro c hc
      have hcl : c ∈ l := List.mem_of_mem_filter hc
      simp [h c (by simpa using hcl)]

/-- The `_fix_up_paragraphs` loop keeps every produced element
invariant-satisfying, provided the accumulated run has no block
environment. -/
theorem parasAux_free (lst : List SabValue) :
    ∀ (thisP : Option (List SabValue)),
      (∀ x ∈ thisP.getD [], is_block_envr x = false) →
      ∀ e ∈ fixUpParasAux thisP lst, nexParagraphDirectBlockFree e = true := by
  induction lst with
  | nil => intro thisP h e he; exact flushParagraph_free thisP h e he
  | cons x rest ih =>
    intro thisP h e he
    by_cases h1 : isPMarker x = true
    · rw [show fixUpParasAux thisP (x :: rest) =
          flushParagraph thisP ++ fixUpParasAux none rest by
            simp [fixUpParasAux, h1]] at he
      rcases List.mem_append.mp he with hm | hm
      · exact flushParagraph_free thisP h e hm
      · exact ih none (by simp) e hm
    · by_cases h2 : is_block_envr x = true
      · rw [show fixUpParasAux thisP (x :: rest) =
            flushParagraph thisP ++ x :: fixUpParasAux none rest by
              simp [fixUpParasAux, h1, h2]] at he
        rcases List.mem_append.mp he with hm | hm
        · exact flushParagraph_free thisP h e hm
        · rcases List.mem_cons.mp hm with rfl | hm
          · exact block_envr_free e h2
          · exact ih none (by simp) e hm
      · rw [show fixUpParasAux thisP (x :: rest) =
            fixUpParasAux (some (thisP.getD [] ++ [x])) rest by
              simp [fixUpParasAux, h1, h2]] at he
        refine ih _ ?_ e he
        intro y hy
        simp only [Option.getD_some] at hy
        rcases List.mem_append.mp hy with hm | hm
        · exact h y hm
        · simp at hm; subst hm
          simpa using h2

/-- C7, counterexample: a block-level `example` environment that follows a
`tab-to-tab-stop` command is captured into a synthetic
`nex-tab-to-tab-stop` environment, which the paragraph pass then wraps in a
synthetic `nex-paragraph` — so a `nex-paragraph` node does contain a
block-level environment at a nesting depth introduced by the fix-up, and
the block does not appear as a top-level sibling. -/
theorem C7_counterexample :
    fix_up_special_markup
      [.vcommand (.vstr (cs ("tab-to-tab-stop"))) .vnone,
       .venvr (.vstr (cs ("example"))) (.vlist []) (.vlist []),
       .vstr (cs ("x") ++ [0xe000])] =
      [.venvr (.vstr (cs ("nex-paragraph"))) (.vlist [])
         (.vlist [.venvr (.vstr (cs ("nex-tab-to-tab-stop"))) (.vlist [])
            (.vlist [.venvr (.vstr (cs ("example"))) (.vlist []) (.vlist []),
                     .vstr (cs ("x"))])])] ∧
    is_block_envr (.venvr (.vstr (cs ("example"))) (.vlist []) (.vlist [])) =
      true := by
  constructor
  · rfl
  · rfl

/-- C7, amended: for a content list none of whose top-level elements is
already a `nex-paragraph` environment (true of all reader output), after
the fix-up passes no `nex-paragraph` node directly contains a block-level
environment; a block-level environment can, however, reach the inside of a
`nex-paragraph` indirectly, wrapped in a synthetic `nex-tab-to-tab-stop`
environment. -/
theorem C7_amended (lst : List SabValue)
    (hin : ∀ el ∈ lst, isNexParagraph el = false) :
    ∀ e ∈ fix_up_special_markup lst, nexParagraphDirectBlockFree e = true := by
  intro e he
  have hL : ∀ el ∈ fix_up_tabs (split_out_paragraph_markers lst),
      isNexParagraph el = false :=
    tabs_no_nexp _ none (split_no_nexp lst hin)
  simp only [fix_up_special_markup, fix_up_paragraphs] at he
  by_cases hm :
      (fix_up_tabs (split_out_paragraph_markers lst)).any isPMarker = true
  · rw [if_pos hm] at he
    exact parasAux_free _ none (by simp) e he
  · rw [if_neg hm] at he
    exact not_nexp_free e (hL e he)

/-- Characters emitted by the slug substitution are `[a-z0-9]` or `-`. -/
theorem slugSubAux_chars : ∀ (l : List Nat) (b : Bool), ∀ c ∈ slugSubAux b l,
    isSlugChar c = true ∨ c = 0x2d := by
  intro l
  induction l with
  | nil => intro b c hc; simp [slugSubAux] at hc
  | cons x rest ih =>
    intro b c hc
    by_cases hx : isSlugChar x = true
    · rw [show slugSubAux b (x :: rest) = x :: slugSubAux false rest by
        simp [slugSubAux, hx]] at hc
      rcases List.mem_cons.mp hc with rfl | hc
      · exact Or.inl hx
      · exact ih false c hc
    · cases b with
      | true =>
        rw [show slugSubAux true (x :: rest) = slugSubAux true rest by
          simp [slugSubAux, hx]] at hc
        exact ih true c hc
      | false =>
        rw [show slugSubAux false (x :: rest) = 0x2d :: slugSubAux true rest by
          simp [slugSubAux, hx]] at hc
        rcases List.mem_cons.mp hc with rfl | hc
        · exact Or.inr rfl
        · exact ih true c hc

/-- After a hyphen has been emitted (`inRun = true`), the next emitted
character is alphanumeric. -/
theorem slugSubAux_true_head : ∀ (l : List Nat) (c : Nat),
    (slugSubAux true l).head? = some c → isSlugChar c = true := by
  intro l
  induction l with
  | nil => intro c hc; simp [slugSubAux] at hc
  | cons x rest ih =>
    intro c hc
    by_cases hx : isSlugChar x = true
    · rw [show slugSubAux true (x :: rest) = x :: slugSubAux false rest by
        simp [slugSubAux, hx]] at hc
      simp at hc
      subst hc
      exact hx
    · rw [show slugSubAux true (x :: rest) = slugSubAux true rest by
        simp [slugSubAux, hx]] at hc
      exact ih c hc

/-- Dropping the head preserves double-hyphen-freeness. -/
theorem hasDouble_cons (x : Nat) (l : List Nat)
    (h : hasDoubleHyphen (x :: l) = false) : hasDoubleHyphen l = false := by
  cases l with
  | nil => rfl
  | cons b r =>
    simp only [hasDoubleHyphen, Bool.or_eq_false_iff] at h
    exact h.2

/-- The slug substitution never emits two adjacent hyphens. -/
theorem slugSubAux_noDouble : ∀ (l : List Nat) (b : Bool),
    hasDoubleHyphen (slugSubAux b l) = false := by
  intro l
  induction l with
  | nil => intro b; rfl
  | cons x rest ih =>
    intro b
    by_cases hx : isSlugChar x = true
    · rw [show slugSubAux b (x :: rest) = x :: slugSubAux false rest by
        simp [slugSubAux, hx]]
      rcases hT : slugSubAux false rest with _ | ⟨t0, tr⟩
      · rfl
      · have hxne : (x == 0x2d) = false := by
          simp only [beq_eq_false_iff_ne, ne_eq]
          intro hq
          subst hq
          exact absurd hx (by decide)
        simp only [hasDoubleHyphen, hxne, Bool.false_and, Bool.false_or]
        rw [← hT]
        exact ih false
    · cases b with
      | true =>
        rw [show slugSubAux true (x :: rest) = slugSubAux true rest by
          simp [slugSubAux, hx]]
        exact ih true
      | false =>
        rw [show slugSubAux false (x :: rest) = 0x2d :: slugSubAux true rest by
          simp [slugSubAux, hx]]
        rcases hT : slugSubAux true rest with _ | ⟨t0, tr⟩
        · rfl
        · have ht0 : isSlugChar t0 = true :=
            slugSubAux_true_head rest t0 (by rw [hT]; rfl)
          have ht0ne : (t0 == 0x2d) = false := by
            simp only [beq_eq_false_iff_ne, ne_eq]
            intro hq
            subst hq
            exact absurd ht0 (by decide)
          simp only [hasDoubleHyphen, ht0ne, Bool.and_false, Bool.false_or]
          rw [← hT]
          exact ih true

/-- Double-hyphen-freeness restricts to a prefix. -/
theorem hasDouble_append_left : ∀ (l t : List Nat),
    hasDoubleHyphen (l ++ t) = false → hasDoubleHyphen l = false
  | [], _, _ => rfl
  | [_], _, _ => rfl
  | a :: b :: r, t, h => by
    simp only [List.cons_append, hasDoubleHyphen, Bool.or_eq_false_iff] at h
    obtain ⟨h1, h2⟩ := h
    have h3 := hasDouble_append_left (b :: r) t (by simpa using h2)
    simp [hasDoubleHyphen, h1, h3]

/-- Double-hyphen-freeness restricts to a suffix. -/
theorem hasDouble_append_right : ∀ (t l : List Nat),
    hasDoubleHyphen (t ++ l) = false → hasDoubleHyphen l = false := by
  intro t
  induction t with
  | nil => intro l h; simpa using h
  | cons a t ih =>
    intro l h
    rw [List.cons_append] at h
    exact ih l (hasDouble_cons a (t ++ l) h)

/-- `stripHyphens` is a right-drop after a left-drop. -/
theorem stripHyphens_eq (l : List Nat) :
    stripHyphens l =
      List.rdropWhile (fun c => c == 0x2d)
        (l.dropWhile (fun c => c == 0x2d)) := rfl

/-- `stripHyphens` only removes characters. -/
theorem stripHyphens_sub (l : List Nat) : ∀ c ∈ stripHyphens l, c ∈ l := by
  intro c hc
  rw [stripHyphens_eq] at hc
  have h1 := (List.rdropWhile_prefix (fun c => c == 0x2d)
    (l := l.dropWhile (fun c => c == 0x2d))).sublist
  have h2 := (List.dropWhile_suffix (l := l) (fun c => c == 0x2d)).sublist
  exact h2.subset (h1.subset hc)

/-- The head surviving a `dropWhile` fails the predicate. -/
theorem dropWhile_head?_not (p : Nat → Bool) : ∀ (l : List Nat) (c : Nat),
    (l.dropWhile p).head? = some c → p c = false := by
  intro l
  induction l with
  | nil => intro c h; simp at h
  | cons a r ih =>
    intro c h
    rw [List.dropWhile_cons] at h
    by_cases hp : p a = true
    · rw [if_pos hp] at h
      exact ih c h
    · rw [if_neg hp] at h
      simp at h
      subst h
      simpa using hp

/-- A nonempty prefix has the same head. -/
theorem isPrefix_head? {l1 l2 : List Nat} (h : l1 <+: l2) (c : Nat)
    (hc : l1.head? = some c) : l2.head? = some c := by
  obtain ⟨t, rfl⟩ := h
  cases l1 with
  | nil => simp at hc
  | cons a r => simpa using hc

/-- The head of a stripped string is not a hyphen. -/
theorem stripHyphens_head (l : List Nat) (c : Nat)
    (h : (stripHyphens l).head? = some c) : (c == 0x2d) = false := by
  rw [stripHyphens_eq] at h
  have h2 := isPrefix_head? (List.rdropWhile_prefix _ _) c h
  exact dropWhile_head?_not _ l c h2

/-- The last character of a stripped string is not a hyphen. -/
theorem stripHyphens_last (l : List Nat) (c : Nat)
    (h : (stripHyphens l).getLast? = some c) : (c == 0x2d) = false := by
  rw [stripHyphens_eq] at h
  set S := l.dropWhile (fun c => c == 0x2d) with hS
  have hne : List.rdropWhile (fun c => c == 0x2d) S ≠ [] := by
    intro hnil
    rw [hnil] at h
    simp at h
  have hlast := List.rdropWhile_last_not (fun c => c == 0x2d) S hne
  rw [List.getLast?_eq_getLast _ hne] at h
  have hgl := Option.some.inj h
  rw [hgl] at hlast
  simpa using hlast

/-- `stripHyphens` preserves double-hyphen-freeness. -/
theorem stripHyphens_noDouble (l : List Nat)
    (h : hasDoubleHyphen l = false) :
    hasDoubleHyphen (stripHyphens l) = false := by
  rw [stripHyphens_eq]
  have h1 : hasDoubleHyphen (l.dropWhile (fun c => c == 0x2d)) = false := by
    obtain ⟨t, ht⟩ := List.dropWhile_suffix (l := l) (fun c => c == 0x2d)
    exact hasDouble_append_right t _ (by rw [ht]; exact h)
  obtain ⟨t, ht⟩ := List.rdropWhile_prefix (fun c => c == 0x2d)
    (l := l.dropWhile (fun c => c == 0x2d))
  exact hasDouble_append_left _ t (by rw [ht]; exact h1)

/-- `stripHyphens` fixes a string with no hyphen at either end. -/
theorem stripHyphens_fix (l : List Nat) (hh : l.head? ≠ some 0x2d)
    (hl : l.getLast? ≠ some 0x2d) : stripHyphens l = l := by
  rw [stripHyphens_eq]
  have h1 : l.dropWhile (fun c => c == 0x2d) = l := by
    cases l with
    | nil => rfl
    | cons a r =>
      rw [List.dropWhile_cons, if_neg]
      simp only [beq_iff_eq]
      intro hq
      exact hh (by simp [hq])
  rw [h1, List.rdropWhile_eq_self_iff.mpr]
  intro hne hp
  apply hl
  rw [List.getLast?_eq_getLast _ hne]
  simpa using hp

/-- The slug substitution fixes an already-clean string. -/
theorem slugSubAux_fix : ∀ (T : List Nat) (b : Bool),
    (∀ c ∈ T, isSlugChar c = true ∨ c = 0x2d) →
    hasDoubleHyphen T = false →
    (b = true → T.head? ≠ some 0x2d) →
    slugSubAux b T = T := by
  intro T
  induction T with
  | nil => intro b _ _ _; cases b <;> rfl
  | cons c rest ih =>
    intro b hclean hnd hb
    rcases hclean c (by simp) with hc | hc
    · rw [show slugSubAux b (c :: rest) = c :: slugSubAux false rest by
        simp [slugSubAux, hc]]
      rw [ih false (fun d hd => hclean d (by simp [hd]))
        (hasDouble_cons c rest hnd) (by simp)]
    · subst hc
      cases b with
      | true => exact absurd (by rfl) (hb rfl)
      | false =>
        have h45 : ¬ (isSlugChar 0x2d = true) := by decide
        rw [show slugSubAux false (0x2d :: rest) =
            0x2d :: slugSubAux true rest by simp [slugSubAux, h45]]
        congr 1
        apply ih true (fun d hd => hclean d (by simp [hd]))
          (hasDouble_cons _ _ hnd)
        intro _
        cases rest with
        | nil => simp
        | cons d r =>
          intro hd
          simp at hd
          subst hd
          simp [hasDoubleHyphen] at hnd

/-- Lower-casing fixes a string of slug characters and hyphens. -/
theorem pyLower_fix (T : List Nat)
    (h : ∀ c ∈ T, isSlugChar c = true ∨ c = 0x2d) : pyLower T = T := by
  induction T with
  | nil => rfl
  | cons c rest ih =>
    have hc : asciiLowerChar c = c := by
      rcases h c (by simp) with hc | hc
      · simp only [isSlugChar, decide_eq_true_eq] at hc
        simp only [asciiLowerChar]
        rw [if_neg (by omega)]
      · subst hc; rfl
    have ih' := ih (fun d hd => h d (by simp [hd]))
    simp only [pyLower, List.map_cons, hc]
    simp only [pyLower] at ih'
    rw [ih']

/-- On an all-non-alphanumeric tail with a hyphen already emitted, the slug
substitution emits nothing. -/
theorem slugSubAux_nonslug_true (l : List Nat)
    (h : ∀ c ∈ l, isSlugChar c = false) : slugSubAux true l = [] := by
  induction l with
  | nil => rfl
  | cons x r ih =>
    have hx : ¬ (isSlugChar x = true) := by simp [h x (by simp)]
    rw [show slugSubAux true (x :: r) = slugSubAux true r by
      simp [slugSubAux, hx]]
    exact ih (fun c hc => h c (by simp [hc]))

/-- C8: slugification is idempotent; the result is always non-empty,
consists of `[a-z0-9-]` with no leading or trailing `-` and no `--`; an
input with no alphanumeric characters yields `"section"` (so
`slug ("*") = "section"`); and `slug ("M-X Find File") = "m-x-find-file"`. -/
theorem C8_slugify (x : List Nat) :
    slugify (slugify x) = slugify x ∧
    slugify x ≠ [] ∧
    (∀ c ∈ slugify x, isSlugChar c = true ∨ c = 0x2d) ∧
    hasDoubleHyphen (slugify x) = false ∧
    (slugify x).head? ≠ some 0x2d ∧
    (slugify x).getLast? ≠ some 0x2d ∧
    ((∀ c ∈ x, isSlugChar (asciiLowerChar c) = false) →
      slugify x = cs ("section")) ∧
    slugify (cs ("M-X Find File")) = cs ("m-x-find-file") ∧
    slugify (cs ("*")) = cs ("section") := by
  have hsection : slugify (cs ("section")) = cs ("section") := by decide
  have hT0 : ∀ y : List Nat, (∀ c ∈ y, isSlugChar (asciiLowerChar c) = false) →
      stripHyphens (slugSub (pyLower y)) = [] := by
    intro y hall
    have hall2 : ∀ c ∈ pyLower y, isSlugChar c = false := by
      intro c hc
      obtain ⟨d, hd, rfl⟩ := List.mem_map.mp hc
      exact hall d hd
    have hsub : slugSub (pyLower y) = [] ∨ slugSub (pyLower y) = [0x2d] := by
      cases hy : pyLower y with
      | nil => exact Or.inl rfl
      | cons a r =>
        right
        have ha : ¬ (isSlugChar a = true) := by
          simp [hall2 a (by rw [hy]; simp)]
        rw [slugSub,
          show slugSubAux false (a :: r) = 0x2d :: slugSubAux true r by
            simp [slugSubAux, ha]]
        rw [slugSubAux_nonslug_true r
          (fun c hc => hall2 c (by rw [hy]; simp [hc]))]
    rcases hsub with hsub | hsub
    · rw [hsub]
      rfl
    · rw [hsub]
      rfl
  have hnone : ∀ y : List Nat,
      (∀ c ∈ y, isSlugChar (asciiLowerChar c) = false) →
      slugify y = cs ("section") := by
    intro y hall
    simp only [slugify]
    rw [if_pos (hT0 y hall)]
  by_cases ht : stripHyphens (slugSub (pyLower x)) = []
  · have hx : slugify x = cs ("section") := by
      simp only [slugify]
      rw [if_pos ht]
    rw [hx]
    refine ⟨hsection, by decide, by decide, by decide, by decide, by decide,
      fun h => rfl, by decide, by decide⟩
  · have hx : slugify x = stripHyphens (slugSub (pyLower x)) := by
      simp only [slugify]
      rw [if_neg ht]
    set t := stripHyphens (slugSub (pyLower x)) with hdef
    have hclean : ∀ c ∈ t, isSlugChar c = true ∨ c = 0x2d := by
      intro c hc
      exact slugSubAux_chars (pyLower x) false c (stripHyphens_sub _ c hc)
    have hnd : hasDoubleHyphen t = false :=
      stripHyphens_noDouble _ (slugSubAux_noDouble (pyLower x) false)
    have hhead : t.head? ≠ some 0x2d := by
      intro hcon
      have := stripHyphens_head _ _ hcon
      simp at this
    have hlast : t.getLast? ≠ some 0x2d := by
      intro hcon
      have := stripHyphens_last _ _ hcon
      simp at this
    have hid : slugify t = t := by
      simp only [slugify]
      rw [pyLower_fix t hclean,
        show slugSub t = t from slugSubAux_fix t false hclean hnd (by simp),
        stripHyphens_fix t hhead hlast, if_neg ht]
    refine ⟨by rw [hx]; exact hid, by rw [hx]; exact ht, ?_, ?_, ?_, ?_,
      ?_, by decide, by decide⟩
    · rw [hx]; exact hclean
    · rw [hx]; exact hnd
    · rw [hx]; exact hhead
    · rw [hx]; exact hlast
    · intro hall
      exact absurd (hT0 x hall) ht

/-- C8, witness: the slug-shape conjuncts of the theorem at the concrete
input `"M-X Find File"`, with the non-alphanumeric conjunct discharged on
`"*"`. -/
theorem C8_witness :
    slugify (slugify (cs ("M-X Find File"))) = slugify (cs ("M-X Find File")) ∧
    slugify (cs ("*")) = cs ("section") := by
  refine ⟨(C8_slugify (cs ("M-X Find File"))).1, ?_⟩
  exact (C8_slugify (cs ("*"))).2.2.2.2.2.2.1 (by decide)

/-- C7, witness: the amended theorem on a list with a paragraph marker and
a block environment, whose fix-up emits the block as a top-level sibling of
the synthetic paragraph. -/
theorem C7_witness :
    (∀ el ∈ [SabValue.vstr (cs ("a") ++ [0xe000]),
             SabValue.venvr (.vstr (cs ("example"))) (.vlist []) (.vlist []),
             SabValue.vstr (cs ("b"))], isNexParagraph el = false) ∧
    ∀ e ∈ fix_up_special_markup
        [SabValue.vstr (cs ("a") ++ [0xe000]),
         SabValue.venvr (.vstr (cs ("example"))) (.vlist []) (.vlist []),
         SabValue.vstr (cs ("b"))],
      nexParagraphDirectBlockFree e = true := by
  constructor
  · decide
  · exact C7_amended _ (by decide)

/-- C2: whenever the full reader `read_sab` parses a SAB file, the
index-only fast path `read_sab_index_only` succeeds on the same bytes,
returns the same file-attribute alist and the very same index, and hence
the `unique-id` and `unique-index` values extracted from its index equal
those extracted from the full read's index. -/
theorem C2_index_only_agrees (fuel : Nat) (data : List Nat)
    (attrs index : SabValue) (records : List SabValue)
    (h : read_sab fuel data = .ok (attrs, records, index)) :
    read_sab_index_only fuel data = .ok (attrs, index) ∧
    (∀ attrs2 index2, read_sab_index_only fuel data = .ok (attrs2, index2) →
      attrs2 = attrs ∧
      extract_unique_ids index2 = extract_unique_ids index ∧
      extract_unique_indexes index2 = extract_unique_indexes index) := by
  have hmain : read_sab_index_only fuel data = .ok (attrs, index) := by
    unfold read_sab at h
    rcases h0 : readU32At data 0 with e | ⟨idp, off1⟩ <;> rw [h0] at h
    · simp [Bind.bind, Except.bind] at h
    simp only [Bind.bind, Except.bind] at h
    by_cases hid : idp ≠ SAGE_ID_PATTERN
    · rw [if_pos hid] at h
      exact absurd h (by simp)
    rw [if_neg hid] at h
    rcases h1 : readU8At data off1 with e | ⟨ver, off2⟩ <;> rw [h1] at h
    · simp [Bind.bind, Except.bind] at h
    simp only [Bind.bind, Except.bind] at h
    by_cases hver : ver ≠ 7
    · rw [if_pos hver] at h
      exact absurd h (by simp)
    rw [if_neg hver] at h
    rcases h2 : read_sab_thing data fuel off2 [] (some 31) with e | ⟨attrs1, off3, t1⟩ <;>
      rw [h2] at h
    · simp [Bind.bind, Except.bind] at h
    simp only [Bind.bind, Except.bind] at h
    rcases h3 : readU32At data off3 with e | ⟨ps, off4⟩ <;> rw [h3] at h
    · simp [Bind.bind, Except.bind] at h
    simp only [Bind.bind, Except.bind] at h
    rcases h4 : readU32At data off4 with e | ⟨pos, off5⟩ <;> rw [h4] at h
    · simp [Bind.bind, Except.bind] at h
    simp only [Bind.bind, Except.bind] at h
    rcases h5 : read_records_loop data fuel ps pos [] with e | ⟨recs1, off6⟩ <;>
      rw [h5] at h
    · simp [Bind.bind, Except.bind] at h
    simp only [Bind.bind, Except.bind] at h
    rcases h6 : read_sab_thing data fuel pos [] (some 28) with e | ⟨idx1, off7, t2⟩ <;>
      rw [h6] at h
    · simp [Bind.bind, Except.bind] at h
    simp only [Bind.bind, Except.bind] at h
    obtain ⟨ha, hr, hi⟩ : attrs1 = attrs ∧ recs1 = records ∧ idx1 = index := by
      have := Except.ok.inj h
      exact ⟨congrArg Prod.fst this, congrArg Prod.fst (congrArg Prod.snd this),
        congrArg Prod.snd (congrArg Prod.snd this)⟩
    unfold read_sab_index_only
    rw [h0]
    simp only [Bind.bind, Except.bind]
    rw [if_neg hid, h1]
    simp only [Bind.bind, Except.bind]
    rw [if_neg hver, h2]
    simp only [Bind.bind, Except.bind]
    rw [h3]
    simp only [Bind.bind, Except.bind]
    rw [h4]
    simp only [Bind.bind, Except.bind]
    rw [h6]
    simp only [Bind.bind, Except.bind]
    rw [ha, hi]
  refine ⟨hmain, ?_⟩
  intro attrs2 index2 h2
  rw [hmain] at h2
  have := Except.ok.inj h2
  have ha : attrs2 = attrs := (congrArg Prod.fst this).symm
  have hi : index2 = index := (congrArg Prod.snd this).symm
  exact ⟨ha, by rw [hi], by rw [hi]⟩

/-- C2, witness: a minimal well-formed SAB file (empty attribute list, no
records, empty index); the theorem applied to the successful full read. -/
theorem C2_witness :
    read_sab 32 [0, 0, 0, 0, 7, 31, 13, 0, 0, 17, 0, 0, 0, 17, 0, 0, 0,
      28, 0, 0, 0, 0] = .ok (.vlist [], [], .vlist []) ∧
    read_sab_index_only 32 [0, 0, 0, 0, 7, 31, 13, 0, 0, 17, 0, 0, 0, 17,
      0, 0, 0, 28, 0, 0, 0, 0] = .ok (.vlist [], .vlist []) := by
  have h : read_sab 32 [0, 0, 0, 0, 7, 31, 13, 0, 0, 17, 0, 0, 0, 17, 0,
      0, 0, 28, 0, 0, 0, 0] = .ok (.vlist [], [], .vlist []) := rfl
  exact ⟨h, (C2_index_only_agrees 32 _ _ _ _ h).1⟩

end Sab2Html
